import Mathlib

/-!
# GetOverdueTasks: the overdue-task report of `api/GetOverdueTasks/index.js`

A shallow embedding of the HTTP-triggered function that pages through the
Teamwork task API, accumulates the projects, tasklists and users that come
with each page, and returns the flattened report sorted by due date.

* JSON objects are structures; a property that may be missing is an `Option`.
* The program never computes with an identifier: it converts it to a string
  (as a property key, in a template literal) or hands it on. An identifier is
  therefore given by the string it converts to.
* The upstream API is a function from the requested page number to what
  `fetch` produced for it; the `while` loop runs on fuel, and `none` stands
  for a run that has not stopped within the fuel.
* `new Date(s)` on a string is a host function and is a parameter `date`:
  `some ms` is the time value, `none` is an Invalid Date.
-/

namespace GetOverdueTasks

/-! ## Data model -/

/-- The `dueDate` property of a task as JavaScript sees it after `JSON.parse`:
missing, `null`, or a string. -/
inductive DueDate where
  | undefined
  | null
  | str (s : String)
  deriving DecidableEq, Repr

/-- JavaScript truthiness of a due date: only a non-empty string is truthy. -/
def DueDate.truthy : DueDate → Bool
  | .str s => s != ""
  | _ => false

/-- An identifier (the `id` of a record, or a reference to one) as the program
sees it: `text` is the string the value converts to, as in `table[id]` and in
the template literal of line 111. The number 7 is `"7"`, the number 1e21 is
`"1e+21"`. -/
structure Id where
  text : String
  deriving DecidableEq, Repr

/-- A task of `data.tasks`. `assigneeUserIds` may be missing. -/
structure Task where
  id : Id
  name : String
  dueDate : DueDate
  tasklistId : Id
  assigneeUserIds : Option (List Id)
  deriving DecidableEq, Repr

/-- A tasklist of `data.included.tasklists`. -/
structure Tasklist where
  id : Id
  projectId : Id
  deriving DecidableEq, Repr

/-- A project of `data.included.projects`. -/
structure Project where
  id : Id
  name : String
  deriving DecidableEq, Repr

/-- A user of `data.included.users`. -/
structure User where
  id : Id
  firstName : String
  lastName : String
  deriving DecidableEq, Repr

/-- A lookup table: a JS object used as a map from id to record, given by what
`table[id]` evaluates to (`none` for `undefined`). -/
abbrev Lookup (α : Type) := Id → Option α

/-- The empty object `{}` of lines 42-44. -/
def Lookup.empty {α : Type} : Lookup α := fun _ => none

/-- The assignment `table[id] = record`. -/
def Lookup.set {α : Type} (table : Lookup α) (id : Id) (record : α) : Lookup α :=
  fun k => if k = id then some record else table k

/-- One element of the array the handler answers with. -/
structure Row where
  TaskID : Id
  Project : String
  Task : String
  AssignedTo : String
  DueDate : DueDate
  URL : String
  deriving DecidableEq, Repr

/-! ## The formatter (lines 88-114) -/

/-- The project name of lines 91-93. -/
def projectName (projects : Lookup Project) (tasklists : Lookup Tasklist) (task : Task) : String :=
  let project : Option Project :=
    match tasklists task.tasklistId with
    | some tasklist => projects tasklist.projectId
    | none => none
  match project with
  | some project => project.name
  | none => "Project Not Found"

/-- The callback of `assigneeUserIds.map` (lines 98-101). -/
def assigneeName (users : Lookup User) (id : Id) : String :=
  match users id with
  | some user => user.firstName ++ " " ++ user.lastName
  | none => "Unknown User"

/-- The assignee string of lines 96-103. -/
def assigneeString (users : Lookup User) (task : Task) : String :=
  match task.assigneeUserIds with
  | some ids =>
    if ids.length > 0 then ", ".intercalate (ids.map (assigneeName users))
    else "Unassigned"
  | none => "Unassigned"

/-- The callback of `tasks.map` (lines 89-112): the row of one task. -/
def formatTask (projects : Lookup Project) (tasklists : Lookup Tasklist) (users : Lookup User)
    (baseUrl : String) (task : Task) : Row :=
  { TaskID := task.id
    Project := projectName projects tasklists task
    Task := task.name
    AssignedTo := assigneeString users task
    DueDate := task.dueDate
    URL := baseUrl ++ "/app/tasks/" ++ task.id.text }

/-- The time value of `new Date(d)`: `none` is NaN (an Invalid Date). A missing
due date gives an Invalid Date, `null` the epoch, a string what the host's date
parser `date` makes of it. -/
def timeValue (date : String → Option Int) : DueDate → Option Int
  | .undefined => none
  | .null => some 0
  | .str s => date s

/-- The comparator of line 113, `new Date(a.DueDate) - new Date(b.DueDate)`;
`none` is NaN. The difference of two time values is taken in the integers: the
rounding of the subtraction keeps its sign. -/
def compareDueDate (date : String → Option Int) (a b : Row) : Option Int :=
  match timeValue date a.DueDate, timeValue date b.DueDate with
  | some x, some y => some (x - y)
  | _, _ => none

/-- The `Compare` of V8's sort, what `Array.prototype.sort` makes of a
comparator's answer: NaN counts as 0. -/
def sortCompare {α : Type} (comparefn : α → α → Option Int) (a b : α) : Int :=
  (comparefn a b).getD 0

/-- The loop of V8's `CountAndMakeRun`: how many of the elements after
`previous` continue the run, which is strictly descending or else
non-descending. -/
def runTail {α : Type} (comparefn : α → α → Option Int) (isDescending : Bool) :
    α → List α → Nat
  | _, [] => 0
  | previous, current :: rest =>
    if isDescending then
      if 0 ≤ sortCompare comparefn current previous then 0
      else runTail comparefn isDescending current rest + 1
    else
      if sortCompare comparefn current previous < 0 then 0
      else runTail comparefn isDescending current rest + 1

/-- V8's `CountAndMakeRun` at the start of the array: the run the array begins
with, reversed when it is descending, and the elements after it. -/
def countAndMakeRun {α : Type} (comparefn : α → α → Option Int) : List α → List α × List α
  | a :: b :: rest =>
    let isDescending : Bool := decide (sortCompare comparefn b a < 0)
    let runLength : Nat := runTail comparefn isDescending b rest + 2
    let run : List α := (a :: b :: rest).take runLength
    (if isDescending then run.reverse else run, (a :: b :: rest).drop runLength)
  | l => (l, [])

/-- The binary search of V8's `BinaryInsertionSort` for the place of `pivot`
in the sorted front `work` of the array, between `left` and `right`. -/
def binarySearch {α : Type} (comparefn : α → α → Option Int) (pivot : α) (work : List α) :
    Nat → Nat → Nat → Nat
  | 0, left, _ => left
  | fuel + 1, left, right =>
    if left < right then
      let mid : Nat := left + (right - left) / 2
      match work[mid]? with
      | some element =>
        if sortCompare comparefn pivot element < 0 then
          binarySearch comparefn pivot work fuel left mid
        else binarySearch comparefn pivot work fuel (mid + 1) right
      | none => left
    else left

/-- One round of V8's `BinaryInsertionSort`: `pivot`, the element after the
sorted front `work`, is moved to the place the binary search finds. -/
def binaryInsert {α : Type} (comparefn : α → α → Option Int) (work : List α) (pivot : α) :
    List α :=
  let left : Nat := binarySearch comparefn pivot work work.length 0 work.length
  work.take left ++ pivot :: work.drop left

/-- V8's sort of an array of fewer than 64 elements, which is one run: the run
at the start is found and the elements after it are inserted one by one. -/
def binaryInsertionSort {α : Type} (comparefn : α → α → Option Int) (l : List α) : List α :=
  (countAndMakeRun comparefn l).2.foldl (binaryInsert comparefn) (countAndMakeRun comparefn l).1

/-- Insertion of `x`, which came before every element of the list in the input,
into the sorted list: `x` moves behind exactly the elements it compares greater
than. -/
def sortInsert {α : Type} (comparefn : α → α → Option Int) (x : α) : List α → List α
  | [] => [x]
  | y :: ys =>
    if 0 < sortCompare comparefn x y then y :: sortInsert comparefn x ys
    else x :: y :: ys

/-- The stable sort: the one order the language allows `Array.prototype.sort`
when the comparator is consistent on the array. -/
def stableSort {α : Type} (comparefn : α → α → Option Int) : List α → List α
  | [] => []
  | x :: xs => sortInsert comparefn x (stableSort comparefn xs)

/-- The built-in `Array.prototype.sort(comparefn)` as V8 runs it. An array of
fewer than 64 elements is one run of V8's sort and is sorted by
`binaryInsertionSort`, step for step, whatever the comparator answers. A longer
array, whose runs V8 merges, is given the stable order, which is what the
language prescribes, and V8 returns, for a comparator that is consistent on the
array; here, when every date compared is valid. -/
def sort {α : Type} (comparefn : α → α → Option Int) (l : List α) : List α :=
  if l.length < 64 then binaryInsertionSort comparefn l else stableSort comparefn l

/-- The function `formatTasks` (lines 88-114). -/
def formatTasks (date : String → Option Int) (tasks : List Task) (projects : Lookup Project)
    (tasklists : Lookup Tasklist) (users : Lookup User) (baseUrl : String) : List Row :=
  sort (compareDueDate date) (tasks.map (formatTask projects tasklists users baseUrl))

/-- The test `a.DueDate <= b.DueDate` on the dates of two rows: both are valid
dates and the first is not later than the second. -/
def dueDateLe (date : String → Option Int) (a b : Row) : Bool :=
  match timeValue date a.DueDate, timeValue date b.DueDate with
  | some x, some y => decide (x ≤ y)
  | _, _ => false

/-! ## The upstream API -/

/-- The object `data.included`; each collection may be missing. A collection is
the sequence `Object.values` gives for it. -/
structure Included where
  users : Option (List User)
  projects : Option (List Project)
  tasklists : Option (List Tasklist)
  deriving DecidableEq, Repr

/-- The object `data.meta.page`. -/
structure PageMeta where
  hasMore : Option Bool
  deriving DecidableEq, Repr

/-- The object `data.meta`. -/
structure Meta where
  page : Option PageMeta
  deriving DecidableEq, Repr

/-- The parsed body of one page, `data` of line 58. -/
structure Data where
  tasks : Option (List Task)
  included : Option Included
  meta : Option Meta
  deriving DecidableEq, Repr

/-- What `await fetch(uri, ...)` followed by `await response.json()` comes to
for one request: `fetch` rejects with an error of the given message, or it
gives a response with a status whose body parses to `data` or makes
`response.json()` throw an error of the given message. -/
inductive FetchResult where
  | rejected (message : String)
  | response (status : Nat) (json : Except String Data)
  deriving Repr

/-- The property `response.ok`: the status is in the range 200-299. -/
def FetchResult.ok (status : Nat) : Bool :=
  decide (200 ≤ status) && decide (status < 300)

/-- One call of `fetch`: the URI and the `Authorization` header. -/
structure Request where
  uri : String
  authorization : String
  deriving DecidableEq, Repr

/-- The base64 alphabet. -/
def base64Alphabet : List Char :=
  "ABCDEFGHIJKLMNOPQRSTUVWXYZabcdefghijklmnopqrstuvwxyz0123456789+/".toList

/-- The base64 digit of a six-bit value. -/
def base64Digit (n : Nat) : Char :=
  base64Alphabet.getD (n % 64) 'A'

/-- Base64 of a sequence of bytes, with padding. -/
def base64Bytes : List Nat → List Char
  | a :: b :: c :: rest =>
    base64Digit (a / 4) :: base64Digit (a % 4 * 16 + b / 16) ::
      base64Digit (b % 16 * 4 + c / 64) :: base64Digit (c % 64) :: base64Bytes rest
  | [a, b] =>
    [base64Digit (a / 4), base64Digit (a % 4 * 16 + b / 16), base64Digit (b % 16 * 4), '=']
  | [a] => [base64Digit (a / 4), base64Digit (a % 4 * 16), '=', '=']
  | [] => []

/-- The expression `Buffer.from(s).toString("base64")` of line 46. -/
def base64 (s : String) : String :=
  String.mk (base64Bytes (s.toUTF8.data.toList.map UInt8.toNat))

/-- The constant `pageSize` of line 38. -/
def pageSize : Nat := 50

/-- The URI of line 52. -/
def requestUri (baseUrl : String) (page : Nat) : String :=
  baseUrl ++ "/projects/api/v3/tasks.json?filter[completed]=false&filter[dueDate][lt]=now&page="
    ++ toString page ++ "&pageSize=" ++ toString pageSize ++ "&include=projects,tasklists,users"

/-- The request of lines 46-54 for one page. -/
def request (apiKey baseUrl : String) (page : Nat) : Request :=
  { uri := requestUri baseUrl page
    authorization := "Basic " ++ base64 (apiKey ++ ":X") }

/-! ## The pagination fetcher (lines 35-85) -/

/-- The local state of `fetchAllOverdueTasks` that the loop changes, `page`
apart. -/
structure Accumulated where
  allOverdueTasks : List Task
  projectsLookup : Lookup Project
  tasklistsLookup : Lookup Tasklist
  usersLookup : Lookup User

/-- The state before the loop (lines 36-44). -/
def Accumulated.initial : Accumulated :=
  { allOverdueTasks := []
    projectsLookup := Lookup.empty
    tasklistsLookup := Lookup.empty
    usersLookup := Lookup.empty }

/-- The loop `records.forEach(r => table[r.id] = r)` over a collection that may
be missing (lines 62-70). -/
def mergeIncluded {α : Type} (id : α → Id) (table : Lookup α) : Option (List α) → Lookup α
  | some records => records.foldl (fun t r => t.set (id r) r) table
  | none => table

/-- The tasks a page adds to `allOverdueTasks` (lines 73-76). -/
def tasksWithDueDate (data : Data) : List Task :=
  match data.tasks with
  | some tasks => if tasks.length > 0 then tasks.filter (fun task => task.dueDate.truthy) else []
  | none => []

/-- Lines 60-76 on the body of one page. -/
def absorb (acc : Accumulated) (data : Data) : Accumulated :=
  let merged : Accumulated :=
    match data.included with
    | some included =>
      { acc with
        usersLookup := mergeIncluded User.id acc.usersLookup included.users
        projectsLookup := mergeIncluded Project.id acc.projectsLookup included.projects
        tasklistsLookup := mergeIncluded Tasklist.id acc.tasklistsLookup included.tasklists }
    | none => acc
  { merged with allOverdueTasks := merged.allOverdueTasks ++ tasksWithDueDate data }

/-- The truthiness of `data.meta && data.meta.page && data.meta.page.hasMore`
(line 79). -/
def hasMorePages (data : Data) : Bool :=
  match data.meta with
  | some m =>
    match m.page with
    | some p => p.hasMore == some true
    | none => false
  | none => false

/-- The message of the error of line 56. -/
def statusMessage (status : Nat) : String :=
  "Teamwork API request failed with status " ++ toString status

/-- The loop of lines 51-81 from the given page on: the requests it issues, in
order, and either the message of the error thrown or the state it ends in.
`none`: the loop has not stopped within the fuel. -/
def fetchPages (upstream : Nat → FetchResult) (apiKey baseUrl : String) :
    Nat → Nat → Accumulated → Option (List Request × Except String Accumulated)
  | 0, _, _ => none
  | fuel + 1, page, acc =>
    match upstream page with
    | .rejected message => some ([request apiKey baseUrl page], .error message)
    | .response status json =>
      if FetchResult.ok status then
        match json with
        | .error message => some ([request apiKey baseUrl page], .error message)
        | .ok data =>
          if hasMorePages data then
            (fetchPages upstream apiKey baseUrl fuel (page + 1) (absorb acc data)).map
              (fun r => (request apiKey baseUrl page :: r.1, r.2))
          else some ([request apiKey baseUrl page], .ok (absorb acc data))
      else some ([request apiKey baseUrl page], .error (statusMessage status))

/-- The function `fetchAllOverdueTasks` (lines 35-85): the requests issued and
the rows returned or the message of the error thrown. -/
def fetchAllOverdueTasks (date : String → Option Int) (upstream : Nat → FetchResult)
    (fuel : Nat) (apiKey baseUrl : String) : Option (List Request × Except String (List Row)) :=
  (fetchPages upstream apiKey baseUrl fuel 1 Accumulated.initial).map
    (fun r => (r.1, r.2.map (fun acc =>
      formatTasks date acc.allOverdueTasks acc.projectsLookup acc.tasklistsLookup
        acc.usersLookup baseUrl)))

/-! ## The request handler (lines 4-32) -/

/-- The two environment variables the handler reads; `none` is unset. -/
structure Env where
  TEAMWORK_API_KEY : Option String
  TEAMWORK_BASE_URL : Option String
  deriving DecidableEq, Repr

/-- The body of `context.res`. -/
inductive Body where
  | rows (allTasks : List Row)
  | failure (error : String) (details : Option String)
  deriving DecidableEq, Repr

/-- The object assigned to `context.res`. -/
structure Response where
  status : Nat
  headers : List (String × String)
  body : Body
  deriving DecidableEq, Repr

/-- What one invocation does: the response it sets, the upstream requests it
issues, and the messages of the errors passed to `context.log.error`. -/
structure Outcome where
  res : Response
  requests : List Request
  logged : List String
  deriving DecidableEq, Repr

/-- The body of the response of lines 10-13. -/
def configurationError : Body :=
  .failure "Server configuration error: API key or Base URL not set." none

/-- JavaScript truthiness of an environment variable: set and not empty. -/
def isSet : Option String → Bool
  | some s => s != ""
  | none => false

/-- The exported handler (lines 4-32). `none`: the fetch has not stopped within
the fuel. -/
def handler (date : String → Option Int) (upstream : Nat → FetchResult) (fuel : Nat)
    (env : Env) : Option Outcome :=
  if !isSet env.TEAMWORK_API_KEY || !isSet env.TEAMWORK_BASE_URL then
    some { res := { status := 500, headers := [], body := configurationError }
           requests := []
           logged := [] }
  else
    match fetchAllOverdueTasks date upstream fuel (env.TEAMWORK_API_KEY.getD "")
        (env.TEAMWORK_BASE_URL.getD "") with
    | none => none
    | some (requests, .ok allTasks) =>
      some { res := { status := 200
                      headers := [("Content-Type", "application/json")]
                      body := .rows allTasks }
             requests := requests
             logged := [] }
    | some (requests, .error message) =>
      some { res := { status := 500
                      headers := []
                      body := .failure "Failed to fetch tasks from Teamwork API." (some message) }
             requests := requests
             logged := [message] }

/-! ## Runs of the fetcher -/

/-- The body of a page that succeeded: the response has a status in the range
200-299 and its body parses. -/
def FetchResult.data? : FetchResult → Option Data
  | .response status (.ok data) => if FetchResult.ok status then some data else none
  | _ => none

/-- The requests for the pages 1, 2, ..., k, in this order. -/
def requestsUpTo (apiKey baseUrl : String) (k : Nat) : List Request :=
  (List.range k).map (fun i => request apiKey baseUrl (i + 1))

/-- The bodies of the pages 1, 2, ..., k, in this order. -/
def pagesUpTo (body : Nat → Data) (k : Nat) : List Data :=
  (List.range k).map (fun i => body (i + 1))

/-- The users a page includes: a body without `included`, or without the
collection, contributes none. -/
def includedUsers (data : Data) : List User :=
  match data.included with
  | some included => included.users.getD []
  | none => []

/-- The projects a page includes. -/
def includedProjects (data : Data) : List Project :=
  match data.included with
  | some included => included.projects.getD []
  | none => []

/-- The tasklists a page includes. -/
def includedTasklists (data : Data) : List Tasklist :=
  match data.included with
  | some included => included.tasklists.getD []
  | none => []

/-- Last-write-wins, in the words of the specification: the record with the
given id from the latest page that included one (and, within that page, the
last such record), or nothing when no page included one. -/
def latestRecord {α : Type} (id : α → Id) (pages : List (List α)) (k : Id) : Option α :=
  match pages.reverse.find? (fun records => records.any (fun r => id r == k)) with
  | some records => records.reverse.find? (fun r => id r == k)
  | none => none

/-- The tasks of a page; a body without `tasks` has none. -/
def tasksOf (data : Data) : List Task :=
  data.tasks.getD []

/-! ## Sample data -/

/-- The time values, in milliseconds since the epoch, of the date strings used
in the examples; every other string stands for one that is not a date. -/
def sampleDate (s : String) : Option Int :=
  if s = "2024-01-01T00:00:00Z" then some 1704067200000
  else if s = "2024-01-02T00:00:00Z" then some 1704153600000
  else if s = "2024-01-03T00:00:00Z" then some 1704240000000
  else none


/-- A first page with one task and no included data, asking for more. -/
def samplePage1 : Data :=
  { tasks := some [⟨⟨"1"⟩, "Write report", .str "2024-01-02T00:00:00Z", ⟨"10"⟩, some [⟨"1"⟩, ⟨"2"⟩, ⟨"9"⟩]⟩]
    included := some { users := some [⟨⟨"1"⟩, "Ann", "One"⟩], projects := none, tasklists := none }
    meta := some { page := some { hasMore := some true } } }

/-- A last page with two tasks, one of them without a due date, which includes
the tasklist and the project of the task of the first page. -/
def samplePage2 : Data :=
  { tasks := some [⟨⟨"2"⟩, "Send invoice", .str "2024-01-01T00:00:00Z", ⟨"10"⟩, none⟩,
                   ⟨⟨"3"⟩, "Call client", .null, ⟨"10"⟩, some [⟨"2"⟩]⟩]
    included := some { users := some [⟨⟨"1"⟩, "A", "One"⟩, ⟨⟨"2"⟩, "B", "Two"⟩]
                       projects := some [⟨⟨"5"⟩, "Website"⟩]
                       tasklists := some [⟨⟨"10"⟩, ⟨"5"⟩⟩] }
    meta := some { page := some { hasMore := some false } } }

/-- The bodies of the sample pages by page number. -/
def sampleBody (page : Nat) : Data :=
  if page = 1 then samplePage1 else samplePage2

/-- An upstream that serves the two sample pages. -/
def sampleUpstream (page : Nat) : FetchResult :=
  if page = 1 then .response 200 (.ok samplePage1)
  else if page = 2 then .response 200 (.ok samplePage2)
  else .response 404 (.error "Unexpected end of JSON input")

/-- A page with no task at all that asks for more. -/
def emptyPage : Data :=
  { tasks := some []
    included := none
    meta := some { page := some { hasMore := some true } } }

/-- The bodies served by `sparseUpstream`. -/
def sparseBody (page : Nat) : Data :=
  if page = 1 then emptyPage else samplePage2

/-- An upstream whose first page is empty and asks for more. -/
def sparseUpstream (page : Nat) : FetchResult :=
  if page = 1 then .response 200 (.ok emptyPage)
  else .response 200 (.ok samplePage2)

/-- An upstream whose second page fails with status 503. -/
def failingUpstream (page : Nat) : FetchResult :=
  if page = 1 then .response 200 (.ok samplePage1)
  else .response 503 (.error "Unexpected token < in JSON at position 0")

/-- An environment with both variables set. -/
def sampleEnv : Env :=
  { TEAMWORK_API_KEY := some "key"
    TEAMWORK_BASE_URL := some "https://example.teamwork.com" }

/-- Seven tasks, the fifth with a due date that is not a date, the others due
on 2024-01-01 but the third, which is due a day later. -/
def mixedTasks : List Task :=
  [⟨⟨"1"⟩, "Task 1", .str "2024-01-01T00:00:00Z", ⟨"10"⟩, none⟩,
   ⟨⟨"2"⟩, "Task 2", .str "2024-01-01T00:00:00Z", ⟨"10"⟩, none⟩,
   ⟨⟨"3"⟩, "Task 3", .str "2024-01-02T00:00:00Z", ⟨"10"⟩, none⟩,
   ⟨⟨"4"⟩, "Task 4", .str "2024-01-01T00:00:00Z", ⟨"10"⟩, none⟩,
   ⟨⟨"5"⟩, "Task 5", .str "TBD", ⟨"10"⟩, none⟩,
   ⟨⟨"6"⟩, "Task 6", .str "2024-01-01T00:00:00Z", ⟨"10"⟩, none⟩,
   ⟨⟨"7"⟩, "Task 7", .str "2024-01-01T00:00:00Z", ⟨"10"⟩, none⟩]

/-! ## The built-in sort -/

theorem sortInsert_perm {α : Type} (c : α → α → Option Int) (x : α) (l : List α) :
    (sortInsert c x l).Perm (x :: l) := by
  induction l with
  | nil => simp [sortInsert]
  | cons y ys ih =>
    unfold sortInsert
    split
    · exact (List.Perm.cons y ih).trans (List.Perm.swap x y ys)
    · exact List.Perm.refl _

theorem stableSort_perm {α : Type} (c : α → α → Option Int) (l : List α) :
    (stableSort c l).Perm l := by
  induction l with
  | nil => simp [stableSort]
  | cons x xs ih =>
    unfold stableSort
    exact (sortInsert_perm c x _).trans (List.Perm.cons x ih)

theorem sortInsert_filter {α : Type} (c : α → α → Option Int) (p : α → Bool) (x : α)
    (l : List α)
    (hp : ∀ b ∈ l, p x = true → p b = true → ¬ 0 < sortCompare c x b) :
    (sortInsert c x l).filter p = (x :: l).filter p := by
  induction l with
  | nil => simp [sortInsert]
  | cons y ys ih =>
    have ih := ih (fun b hb => hp b (List.mem_cons_of_mem _ hb))
    unfold sortInsert
    split
    · rename_i h
      by_cases hx : p x = true
      · have hy : p y = false := by
          by_contra hy
          exact hp y (List.mem_cons_self _ _) hx (by simpa using hy) h
        simp [List.filter_cons, hy, ih]
      · have hx' : p x = false := by simpa using hx
        simp [List.filter_cons, hx', ih]
    · rfl

theorem stableSort_filter {α : Type} (c : α → α → Option Int) (p : α → Bool) (l : List α)
    (hp : ∀ a ∈ l, ∀ b ∈ l, p a = true → p b = true → ¬ 0 < sortCompare c a b) :
    (stableSort c l).filter p = l.filter p := by
  induction l with
  | nil => simp [stableSort]
  | cons x xs ih =>
    unfold stableSort
    rw [sortInsert_filter c p x _ (fun b hb => hp x (List.mem_cons_self _ _) b
        (List.mem_cons_of_mem _ ((stableSort_perm c xs).subset hb))),
      List.filter_cons, List.filter_cons,
      ih (fun a ha b hb => hp a (List.mem_cons_of_mem _ ha) b (List.mem_cons_of_mem _ hb))]

theorem sortInsert_pairwise {α : Type} (c : α → α → Option Int) (key : α → Int)
    (x : α) (l : List α)
    (hc : ∀ b ∈ l, (0 < sortCompare c x b ↔ key b < key x))
    (hl : l.Pairwise (fun a b => key a ≤ key b)) :
    (sortInsert c x l).Pairwise (fun a b => key a ≤ key b) := by
  induction l with
  | nil => simp [sortInsert]
  | cons y ys ih =>
    unfold sortInsert
    have hy : ∀ b ∈ ys, key y ≤ key b := fun b hb => List.rel_of_pairwise_cons hl hb
    have hys := List.Pairwise.of_cons hl
    split
    · rename_i h
      have hxy : key y < key x := (hc y (List.mem_cons_self _ _)).1 h
      have ih' := ih (fun b hb => hc b (List.mem_cons_of_mem _ hb)) hys
      refine List.Pairwise.cons ?_ ih'
      intro b hb
      rcases List.mem_cons.1 ((sortInsert_perm c x ys).subset hb) with rfl | hb
      · exact le_of_lt hxy
      · exact hy b hb
    · rename_i h
      have hxy : key x ≤ key y := by
        by_contra hlt
        exact h ((hc y (List.mem_cons_self _ _)).2 (lt_of_not_ge hlt))
      refine List.Pairwise.cons ?_ hl
      intro b hb
      rcases List.mem_cons.1 hb with rfl | hb
      · exact hxy
      · exact le_trans hxy (hy b hb)

theorem stableSort_pairwise {α : Type} (c : α → α → Option Int) (key : α → Int) (l : List α)
    (hc : ∀ a ∈ l, ∀ b ∈ l, (0 < sortCompare c a b ↔ key b < key a)) :
    (stableSort c l).Pairwise (fun a b => key a ≤ key b) := by
  induction l with
  | nil => simp [stableSort]
  | cons x xs ih =>
    unfold stableSort
    apply sortInsert_pairwise
    · intro b hb
      exact hc x (List.mem_cons_self _ _) b
        (List.mem_cons_of_mem _ ((stableSort_perm c xs).subset hb))
    · exact ih (fun a ha b hb => hc a (List.mem_cons_of_mem _ ha) b (List.mem_cons_of_mem _ hb))

theorem runTail_le {α : Type} (c : α → α → Option Int) (d : Bool) (prev : α) (rest : List α) :
    runTail c d prev rest ≤ rest.length := by
  induction rest generalizing prev with
  | nil => simp [runTail]
  | cons x xs ih =>
    unfold runTail
    have := ih x
    split <;> split <;> simp <;> omega

theorem countAndMakeRun_perm {α : Type} (c : α → α → Option Int) (l : List α) :
    ((countAndMakeRun c l).1 ++ (countAndMakeRun c l).2).Perm l := by
  match l with
  | [] => simp [countAndMakeRun]
  | [a] => simp [countAndMakeRun]
  | a :: b :: rest =>
    simp only [countAndMakeRun]
    split
    · exact ((List.reverse_perm _).append_right _).trans
        (by rw [List.take_append_drop])
    · rw [List.take_append_drop]

theorem binaryInsert_perm {α : Type} (c : α → α → Option Int) (work : List α) (pivot : α) :
    (binaryInsert c work pivot).Perm (work ++ [pivot]) := by
  unfold binaryInsert
  have h : (work.take (binarySearch c pivot work work.length 0 work.length)
      ++ pivot :: work.drop (binarySearch c pivot work work.length 0 work.length)).Perm
      (pivot :: work) := by
    refine List.perm_middle.trans ?_
    rw [List.take_append_drop]
  exact h.trans (List.perm_append_singleton pivot work).symm

theorem foldl_binaryInsert_perm {α : Type} (c : α → α → Option Int) (rest run : List α) :
    (rest.foldl (binaryInsert c) run).Perm (run ++ rest) := by
  induction rest generalizing run with
  | nil => simp
  | cons x xs ih =>
    rw [List.foldl_cons]
    refine (ih _).trans ?_
    refine ((binaryInsert_perm c run x).append_right xs).trans ?_
    simp

theorem binaryInsertionSort_perm {α : Type} (c : α → α → Option Int) (l : List α) :
    (binaryInsertionSort c l).Perm l :=
  (foldl_binaryInsert_perm c _ _).trans (countAndMakeRun_perm c l)

theorem binarySearch_spec {α : Type} (c : α → α → Option Int) (key : α → Int)
    (V : α → Prop) (hc : ∀ a b, V a → V b → sortCompare c a b = key a - key b)
    (pivot : α) (hpv : V pivot) (work : List α) (hw : ∀ x ∈ work, V x)
    (hsorted : work.Pairwise (fun a b => key a ≤ key b)) :
    ∀ (fuel left right : Nat), left ≤ right → right ≤ work.length → right - left ≤ fuel →
      (∀ x ∈ work.take left, key x ≤ key pivot) →
      (∀ x ∈ work.drop right, key pivot < key x) →
      (∀ x ∈ work.take (binarySearch c pivot work fuel left right), key x ≤ key pivot)
        ∧ (∀ x ∈ work.drop (binarySearch c pivot work fuel left right), key pivot < key x) := by
  intro fuel
  induction fuel with
  | zero =>
    intro left right hlr _ hfuel htake hdrop
    have : left = right := by omega
    subst this
    exact ⟨by simpa [binarySearch] using htake, by simpa [binarySearch] using hdrop⟩
  | succ fuel ih =>
    intro left right hlr hlen hfuel htake hdrop
    unfold binarySearch
    by_cases hlt : left < right
    · have hmid1 : left ≤ left + (right - left) / 2 := by omega
      have hmid2 : left + (right - left) / 2 < right := by omega
      have hmidlen : left + (right - left) / 2 < work.length := by omega
      simp only [hlt, if_true]
      rw [List.getElem?_eq_getElem hmidlen]
      simp only []
      have hV : V work[left + (right - left) / 2] := hw _ (List.getElem_mem _)
      by_cases hcmp : sortCompare c pivot work[left + (right - left) / 2] < 0
      · simp only [hcmp, if_true]
        apply ih left _ hmid1 (by omega) (by omega) htake
        intro x hx
        rw [hc _ _ hpv hV] at hcmp
        rw [List.drop_eq_getElem_cons hmidlen] at hx
        have hp : (work[left + (right - left) / 2]
            :: work.drop (left + (right - left) / 2 + 1)).Pairwise (fun a b => key a ≤ key b) := by
          rw [← List.drop_eq_getElem_cons hmidlen]
          exact hsorted.sublist (List.drop_sublist _ _)
        rcases List.mem_cons.1 hx with rfl | hx
        · omega
        · have := List.rel_of_pairwise_cons hp hx
          omega
      · simp only [hcmp, if_false]
        apply ih _ right (by omega) hlen (by omega) _ hdrop
        intro x hx
        rw [hc _ _ hpv hV] at hcmp
        rw [List.take_succ, List.getElem?_eq_getElem hmidlen] at hx
        have hp : (work.take (left + (right - left) / 2)
            ++ [work[left + (right - left) / 2]]).Pairwise (fun a b => key a ≤ key b) := by
          have := hsorted.sublist (List.take_sublist (left + (right - left) / 2 + 1) work)
          rwa [List.take_succ, List.getElem?_eq_getElem hmidlen] at this
        rcases List.mem_append.1 hx with hx | hx
        · have := (List.pairwise_append.1 hp).2.2 x hx _ (List.mem_singleton_self _)
          omega
        · simp at hx
          subst hx
          omega
    · have : left = right := by omega
      subst this
      simp only [hlt, if_false]
      exact ⟨htake, hdrop⟩

theorem binaryInsert_spec {α : Type} (c : α → α → Option Int) (key : α → Int)
    (V : α → Prop) (hc : ∀ a b, V a → V b → sortCompare c a b = key a - key b)
    (pivot : α) (hpv : V pivot) (work : List α) (hw : ∀ x ∈ work, V x)
    (hsorted : work.Pairwise (fun a b => key a ≤ key b)) :
    ∃ left, binaryInsert c work pivot = work.take left ++ pivot :: work.drop left
      ∧ (∀ x ∈ work.take left, key x ≤ key pivot)
      ∧ (∀ x ∈ work.drop left, key pivot < key x) := by
  refine ⟨binarySearch c pivot work work.length 0 work.length, rfl, ?_⟩
  exact binarySearch_spec c key V hc pivot hpv work hw hsorted work.length 0 work.length
    (Nat.zero_le _) (Nat.le_refl _) (by omega) (by simp) (by simp)

theorem binaryInsert_pairwise {α : Type} (c : α → α → Option Int) (key : α → Int)
    (V : α → Prop) (hc : ∀ a b, V a → V b → sortCompare c a b = key a - key b)
    (pivot : α) (hpv : V pivot) (work : List α) (hw : ∀ x ∈ work, V x)
    (hsorted : work.Pairwise (fun a b => key a ≤ key b)) :
    (binaryInsert c work pivot).Pairwise (fun a b => key a ≤ key b) := by
  obtain ⟨left, heq, htake, hdrop⟩ := binaryInsert_spec c key V hc pivot hpv work hw hsorted
  rw [heq]
  have hsplit : (work.take left ++ work.drop left).Pairwise (fun a b => key a ≤ key b) := by
    rw [List.take_append_drop]
    exact hsorted
  obtain ⟨h1, h2, h3⟩ := List.pairwise_append.1 hsplit
  refine List.pairwise_append.2 ⟨h1, List.Pairwise.cons ?_ h2, ?_⟩
  · intro y hy
    exact le_of_lt (hdrop y hy)
  · intro x hx y hy
    rcases List.mem_cons.1 hy with rfl | hy
    · exact htake x hx
    · exact h3 x hx y hy

theorem binaryInsert_filter {α : Type} (c : α → α → Option Int) (key : α → Int)
    (V : α → Prop) (hc : ∀ a b, V a → V b → sortCompare c a b = key a - key b)
    (p : α → Bool) (hp : ∀ a b, V a → V b → p a = true → p b = true → key a = key b)
    (pivot : α) (hpv : V pivot) (work : List α) (hw : ∀ x ∈ work, V x)
    (hsorted : work.Pairwise (fun a b => key a ≤ key b)) :
    (binaryInsert c work pivot).filter p = (work ++ [pivot]).filter p := by
  obtain ⟨left, heq, _, hdrop⟩ := binaryInsert_spec c key V hc pivot hpv work hw hsorted
  rw [heq]
  conv_rhs => rw [← List.take_append_drop left work]
  simp only [List.filter_append, List.filter_cons, List.filter_nil, List.append_assoc]
  by_cases hpp : p pivot = true
  · have hnone : (work.drop left).filter p = [] := by
      rw [List.filter_eq_nil_iff]
      intro y hy hpy
      have hy' : y ∈ work := (List.drop_sublist left work).subset hy
      have := hp pivot y hpv (hw y hy') hpp hpy
      have := hdrop y hy
      omega
    simp [hpp, hnone]
  · have hpp' : p pivot = false := by simpa using hpp
    simp [hpp']

theorem foldl_binaryInsert_sorted {α : Type} (c : α → α → Option Int) (key : α → Int)
    (V : α → Prop) (hc : ∀ a b, V a → V b → sortCompare c a b = key a - key b)
    (p : α → Bool) (hp : ∀ a b, V a → V b → p a = true → p b = true → key a = key b)
    (rest : List α) (hr : ∀ x ∈ rest, V x) :
    ∀ (run : List α), (∀ x ∈ run, V x) → run.Pairwise (fun a b => key a ≤ key b) →
      (rest.foldl (binaryInsert c) run).Pairwise (fun a b => key a ≤ key b)
        ∧ (rest.foldl (binaryInsert c) run).filter p = (run ++ rest).filter p := by
  induction rest with
  | nil =>
    intro run _ hsorted
    simpa using hsorted
  | cons x xs ih =>
    intro run hrun hsorted
    have hx : V x := hr x (List.mem_cons_self _ _)
    have hV : ∀ y ∈ binaryInsert c run x, V y := by
      intro y hy
      rcases List.mem_append.1 ((binaryInsert_perm c run x).subset hy) with hy | hy
      · exact hrun y hy
      · simp at hy
        subst hy
        exact hx
    obtain ⟨h1, h2⟩ := ih (fun y hy => hr y (List.mem_cons_of_mem _ hy)) (binaryInsert c run x) hV
      (binaryInsert_pairwise c key V hc x hx run hrun hsorted)
    rw [List.foldl_cons]
    refine ⟨h1, ?_⟩
    rw [h2, List.filter_append, binaryInsert_filter c key V hc p hp x hx run hrun hsorted,
      ← List.filter_append, List.append_assoc]
    rfl

theorem runTail_ascending {α : Type} (c : α → α → Option Int) (key : α → Int)
    (V : α → Prop) (hc : ∀ a b, V a → V b → sortCompare c a b = key a - key b)
    (rest : List α) (hr : ∀ x ∈ rest, V x) :
    ∀ prev, V prev →
      List.Chain (fun x y => key x ≤ key y) prev (rest.take (runTail c false prev rest)) := by
  induction rest with
  | nil =>
    intro prev _
    simp
  | cons x xs ih =>
    intro prev hprev
    have hx : V x := hr x (List.mem_cons_self _ _)
    unfold runTail
    by_cases hcmp : sortCompare c x prev < 0
    · simp [hcmp]
    · simp only [Bool.false_eq_true, if_false, hcmp, List.take_succ_cons]
      refine List.Chain.cons ?_ (ih (fun y hy => hr y (List.mem_cons_of_mem _ hy)) x hx)
      rw [hc x prev hx hprev] at hcmp
      omega

theorem runTail_descending {α : Type} (c : α → α → Option Int) (key : α → Int)
    (V : α → Prop) (hc : ∀ a b, V a → V b → sortCompare c a b = key a - key b)
    (rest : List α) (hr : ∀ x ∈ rest, V x) :
    ∀ prev, V prev →
      List.Chain (fun x y => key y < key x) prev (rest.take (runTail c true prev rest)) := by
  induction rest with
  | nil =>
    intro prev _
    simp
  | cons x xs ih =>
    intro prev hprev
    have hx : V x := hr x (List.mem_cons_self _ _)
    unfold runTail
    by_cases hcmp : 0 ≤ sortCompare c x prev
    · simp [hcmp]
    · simp only [if_true, hcmp, if_false, List.take_succ_cons]
      refine List.Chain.cons ?_ (ih (fun y hy => hr y (List.mem_cons_of_mem _ hy)) x hx)
      rw [hc x prev hx hprev] at hcmp
      omega

theorem filter_reverse_of_descending {α : Type} (key : α → Int) (V : α → Prop)
    (p : α → Bool) (hp : ∀ a b, V a → V b → p a = true → p b = true → key a = key b)
    (l : List α) (hl : ∀ x ∈ l, V x) (hdesc : l.Pairwise (fun x y => key y < key x)) :
    l.reverse.filter p = l.filter p := by
  induction l with
  | nil => rfl
  | cons x xs ih =>
    have hx : V x := hl x (List.mem_cons_self _ _)
    have hxs : ∀ y ∈ xs, V y := fun y hy => hl y (List.mem_cons_of_mem _ hy)
    have hrel : ∀ y ∈ xs, key y < key x := fun y hy => List.rel_of_pairwise_cons hdesc hy
    rw [List.reverse_cons, List.filter_append, ih hxs (List.Pairwise.of_cons hdesc)]
    by_cases hpx : p x = true
    · have hnone : xs.filter p = [] := by
        rw [List.filter_eq_nil_iff]
        intro y hy hpy
        have := hp x y hx (hxs y hy) hpx hpy
        have := hrel y hy
        omega
      simp [List.filter_cons, hpx, hnone]
    · have hpx' : p x = false := by simpa using hpx
      simp [List.filter_cons, hpx']

theorem countAndMakeRun_sorted {α : Type} (c : α → α → Option Int) (key : α → Int)
    (V : α → Prop) (hc : ∀ a b, V a → V b → sortCompare c a b = key a - key b)
    (p : α → Bool) (hp : ∀ a b, V a → V b → p a = true → p b = true → key a = key b)
    (l : List α) (hl : ∀ x ∈ l, V x) :
    (countAndMakeRun c l).1.Pairwise (fun a b => key a ≤ key b)
      ∧ ((countAndMakeRun c l).1 ++ (countAndMakeRun c l).2).filter p = l.filter p := by
  match l, hl with
  | [], _ => simp [countAndMakeRun]
  | [a], _ => simp [countAndMakeRun]
  | a :: b :: rest, hl =>
    have ha : V a := hl a (by simp)
    have hb : V b := hl b (by simp)
    have hrest : ∀ x ∈ rest, V x := fun x hx => hl x (by simp [hx])
    simp only [countAndMakeRun, List.take_succ_cons, List.drop_succ_cons]
    by_cases hd : sortCompare c b a < 0
    · simp only [hd, decide_True, if_true]
      have hchain : List.Chain (fun x y => key y < key x) a
          (b :: rest.take (runTail c true b rest)) := by
        refine List.Chain.cons ?_ (runTail_descending c key V hc rest hrest b hb)
        rw [hc b a hb ha] at hd
        omega
      haveI : IsTrans α (fun x y => key y < key x) := ⟨fun _ _ _ h1 h2 => lt_trans h2 h1⟩
      have hpw : (a :: b :: rest.take (runTail c true b rest)).Pairwise
          (fun x y => key y < key x) := List.chain_iff_pairwise.1 hchain
      have hVrun : ∀ x ∈ a :: b :: rest.take (runTail c true b rest), V x := by
        intro x hx
        rcases List.mem_cons.1 hx with rfl | hx
        · exact ha
        · rcases List.mem_cons.1 hx with rfl | hx
          · exact hb
          · exact hrest x ((List.take_sublist _ _).subset hx)
      constructor
      · have hrev := List.pairwise_reverse.2 hpw
        exact hrev.imp (fun h => le_of_lt h)
      · rw [List.filter_append,
          filter_reverse_of_descending key V p hp _ hVrun hpw, ← List.filter_append]
        simp [List.take_append_drop]
    · simp only [hd, decide_False, Bool.false_eq_true, if_false]
      have hchain : List.Chain (fun x y => key x ≤ key y) a
          (b :: rest.take (runTail c false b rest)) := by
        refine List.Chain.cons ?_ (runTail_ascending c key V hc rest hrest b hb)
        rw [hc b a hb ha] at hd
        omega
      haveI : IsTrans α (fun x y => key x ≤ key y) := ⟨fun _ _ _ h1 h2 => le_trans h1 h2⟩
      constructor
      · exact List.chain_iff_pairwise.1 hchain
      · simp [List.take_append_drop]

theorem binaryInsertionSort_sorted {α : Type} (c : α → α → Option Int) (key : α → Int)
    (V : α → Prop) (hc : ∀ a b, V a → V b → sortCompare c a b = key a - key b)
    (p : α → Bool) (hp : ∀ a b, V a → V b → p a = true → p b = true → key a = key b)
    (l : List α) (hl : ∀ x ∈ l, V x) :
    (binaryInsertionSort c l).Pairwise (fun a b => key a ≤ key b)
      ∧ (binaryInsertionSort c l).filter p = l.filter p := by
  obtain ⟨hrun, hfilter⟩ := countAndMakeRun_sorted c key V hc p hp l hl
  have hV : ∀ x ∈ (countAndMakeRun c l).1 ++ (countAndMakeRun c l).2, V x :=
    fun x hx => hl x ((countAndMakeRun_perm c l).subset hx)
  obtain ⟨h1, h2⟩ := foldl_binaryInsert_sorted c key V hc p hp (countAndMakeRun c l).2
    (fun x hx => hV x (List.mem_append_right _ hx)) (countAndMakeRun c l).1
    (fun x hx => hV x (List.mem_append_left _ hx)) hrun
  exact ⟨h1, h2.trans hfilter⟩


theorem sort_perm {α : Type} (c : α → α → Option Int) (l : List α) : (sort c l).Perm l := by
  unfold sort
  split
  · exact binaryInsertionSort_perm c l
  · exact stableSort_perm c l

/-- On a list on which the comparator is the difference of a key, `sort` gives
the list in ascending order of the key. -/
theorem sort_pairwise {α : Type} (c : α → α → Option Int) (key : α → Int) (l : List α)
    (hc : ∀ a ∈ l, ∀ b ∈ l, sortCompare c a b = key a - key b) :
    (sort c l).Pairwise (fun a b => key a ≤ key b) := by
  unfold sort
  split
  · exact (binaryInsertionSort_sorted c key (fun x => x ∈ l) (fun a b ha hb => hc a ha b hb)
      (fun _ => false) (fun _ _ _ _ h => by simp at h) l (fun _ hx => hx)).1
  · apply stableSort_pairwise
    intro a ha b hb
    rw [hc a ha b hb]
    omega

/-- On a list on which the comparator is the difference of a key, `sort` keeps
the elements that satisfy `p` in their order, when `p` holds of elements of one
key only. -/
theorem sort_filter {α : Type} (c : α → α → Option Int) (key : α → Int) (p : α → Bool)
    (l : List α)
    (hc : ∀ a ∈ l, ∀ b ∈ l, sortCompare c a b = key a - key b)
    (hp : ∀ a ∈ l, ∀ b ∈ l, p a = true → p b = true → key a = key b) :
    (sort c l).filter p = l.filter p := by
  unfold sort
  split
  · exact (binaryInsertionSort_sorted c key (fun x => x ∈ l) (fun a b ha hb => hc a ha b hb)
      p (fun a b ha hb => hp a ha b hb) l (fun _ hx => hx)).2
  · apply stableSort_filter
    intro a ha b hb hpa hpb
    rw [hc a ha b hb, hp a ha b hb hpa hpb]
    omega

/-! ## The formatter -/

theorem formatTasks_perm (date : String → Option Int) (tasks : List Task)
    (projects : Lookup Project) (tasklists : Lookup Tasklist) (users : Lookup User)
    (baseUrl : String) :
    (formatTasks date tasks projects tasklists users baseUrl).Perm
      (tasks.map (formatTask projects tasklists users baseUrl)) :=
  sort_perm _ _

theorem sortCompare_compareDueDate (date : String → Option Int) (a b : Row) (x y : Int)
    (ha : timeValue date a.DueDate = some x) (hb : timeValue date b.DueDate = some y) :
    sortCompare (compareDueDate date) a b = x - y := by
  simp [sortCompare, compareDueDate, ha, hb]

theorem sortCompare_same_time (date : String → Option Int) (a b : Row)
    (h : timeValue date a.DueDate = timeValue date b.DueDate) :
    sortCompare (compareDueDate date) a b = 0 := by
  unfold sortCompare compareDueDate
  rw [h]
  cases timeValue date b.DueDate <;> simp

theorem sortCompare_of_valid (date : String → Option Int) (tasks : List Task)
    (projects : Lookup Project) (tasklists : Lookup Tasklist) (users : Lookup User)
    (baseUrl : String)
    (hvalid : ∀ task ∈ tasks, (timeValue date task.dueDate).isSome = true) :
    ∀ a ∈ tasks.map (formatTask projects tasklists users baseUrl),
      ∀ b ∈ tasks.map (formatTask projects tasklists users baseUrl),
        sortCompare (compareDueDate date) a b
          = (timeValue date a.DueDate).getD 0 - (timeValue date b.DueDate).getD 0 := by
  intro a ha b hb
  obtain ⟨ta, hta, rfl⟩ := List.mem_map.1 ha
  obtain ⟨tb, htb, rfl⟩ := List.mem_map.1 hb
  obtain ⟨x, hx⟩ := Option.isSome_iff_exists.1 (hvalid ta hta)
  obtain ⟨y, hy⟩ := Option.isSome_iff_exists.1 (hvalid tb htb)
  have hx' : timeValue date (formatTask projects tasklists users baseUrl ta).DueDate
      = some x := hx
  have hy' : timeValue date (formatTask projects tasklists users baseUrl tb).DueDate
      = some y := hy
  rw [sortCompare_compareDueDate date _ _ x y hx' hy', hx', hy']
  rfl

/-- C1, as amended: when the due date of every task is a valid date, the rows
of `formatTasks` are in ascending order of due date: each row's date is a valid
date not later than the date of the row after it. -/
theorem formatTasks_ascending (date : String → Option Int) (tasks : List Task)
    (projects : Lookup Project) (tasklists : Lookup Tasklist) (users : Lookup User)
    (baseUrl : String)
    (hvalid : ∀ task ∈ tasks, (timeValue date task.dueDate).isSome = true) :
    List.Chain' (fun a b => dueDateLe date a b = true)
      (formatTasks date tasks projects tasklists users baseUrl) := by
  have hrow : ∀ r ∈ tasks.map (formatTask projects tasklists users baseUrl),
      ∃ x, timeValue date r.DueDate = some x := by
    intro r hr
    obtain ⟨task, ht, rfl⟩ := List.mem_map.1 hr
    exact Option.isSome_iff_exists.1 (hvalid task ht)
  have hsorted : (formatTasks date tasks projects tasklists users baseUrl).Pairwise
      (fun a b => (timeValue date a.DueDate).getD 0 ≤ (timeValue date b.DueDate).getD 0) :=
    sort_pairwise _ _ _
      (sortCompare_of_valid date tasks projects tasklists users baseUrl hvalid)
  apply List.Pairwise.chain'
  refine List.Pairwise.imp_of_mem ?_ hsorted
  intro a b ha hb hab
  obtain ⟨x, hx⟩ := hrow a ((formatTasks_perm date tasks projects tasklists users baseUrl).subset ha)
  obtain ⟨y, hy⟩ := hrow b ((formatTasks_perm date tasks projects tasklists users baseUrl).subset hb)
  rw [hx, hy] at hab
  simpa [dueDateLe, hx, hy] using hab

/-- C1 witness: three tasks with valid due dates, given out of order. -/
theorem formatTasks_ascending_witness :
    List.Chain' (fun a b => dueDateLe sampleDate a b = true)
      (formatTasks sampleDate
        [⟨⟨"1"⟩, "Write report", .str "2024-01-03T00:00:00Z", ⟨"10"⟩, none⟩,
         ⟨⟨"2"⟩, "Send invoice", .str "2024-01-01T00:00:00Z", ⟨"10"⟩, none⟩,
         ⟨⟨"3"⟩, "Call client", .str "2024-01-02T00:00:00Z", ⟨"10"⟩, none⟩]
        Lookup.empty Lookup.empty Lookup.empty "https://example.teamwork.com") :=
  formatTasks_ascending sampleDate _ _ _ _ _ (by decide)

/-- C1 as stated fails: a task whose due date is not a date stays in front of
a task with a valid date, and the test `a.DueDate <= b.DueDate` on the two rows
is false. -/
theorem formatTasks_not_ascending :
    formatTasks sampleDate
        [⟨⟨"1"⟩, "Write report", .str "TBD", ⟨"10"⟩, none⟩,
         ⟨⟨"2"⟩, "Send invoice", .str "2024-01-01T00:00:00Z", ⟨"10"⟩, none⟩]
        Lookup.empty Lookup.empty Lookup.empty "https://example.teamwork.com"
      = [⟨⟨"1"⟩, "Project Not Found", "Write report", "Unassigned", .str "TBD",
            "https://example.teamwork.com/app/tasks/1"⟩,
         ⟨⟨"2"⟩, "Project Not Found", "Send invoice", "Unassigned", .str "2024-01-01T00:00:00Z",
            "https://example.teamwork.com/app/tasks/2"⟩]
    ∧ ¬ List.Chain' (fun a b => dueDateLe sampleDate a b = true)
      (formatTasks sampleDate
        [⟨⟨"1"⟩, "Write report", .str "TBD", ⟨"10"⟩, none⟩,
         ⟨⟨"2"⟩, "Send invoice", .str "2024-01-01T00:00:00Z", ⟨"10"⟩, none⟩]
        Lookup.empty Lookup.empty Lookup.empty "https://example.teamwork.com") := by
  have hout : formatTasks sampleDate
        [⟨⟨"1"⟩, "Write report", .str "TBD", ⟨"10"⟩, none⟩,
         ⟨⟨"2"⟩, "Send invoice", .str "2024-01-01T00:00:00Z", ⟨"10"⟩, none⟩]
        Lookup.empty Lookup.empty Lookup.empty "https://example.teamwork.com"
      = [⟨⟨"1"⟩, "Project Not Found", "Write report", "Unassigned", .str "TBD",
            "https://example.teamwork.com/app/tasks/1"⟩,
         ⟨⟨"2"⟩, "Project Not Found", "Send invoice", "Unassigned", .str "2024-01-01T00:00:00Z",
            "https://example.teamwork.com/app/tasks/2"⟩] := by
    decide
  refine ⟨hout, ?_⟩
  rw [hout, List.chain'_pair]
  decide

/-- C8, as amended: when the due date of every task is a valid date, the rows
of `formatTasks` with one and the same due date, and more generally with one
and the same time value, are in the order in which their tasks stand in the
input. -/
theorem formatTasks_stable (date : String → Option Int) (tasks : List Task)
    (projects : Lookup Project) (tasklists : Lookup Tasklist) (users : Lookup User)
    (baseUrl : String)
    (hvalid : ∀ task ∈ tasks, (timeValue date task.dueDate).isSome = true) :
    (∀ d : DueDate,
      (formatTasks date tasks projects tasklists users baseUrl).filter
          (fun r => decide (r.DueDate = d))
        = (tasks.map (formatTask projects tasklists users baseUrl)).filter
          (fun r => decide (r.DueDate = d)))
    ∧ (∀ t : Option Int,
      (formatTasks date tasks projects tasklists users baseUrl).filter
          (fun r => decide (timeValue date r.DueDate = t))
        = (tasks.map (formatTask projects tasklists users baseUrl)).filter
          (fun r => decide (timeValue date r.DueDate = t))) := by
  have hc := sortCompare_of_valid date tasks projects tasklists users baseUrl hvalid
  constructor
  · intro d
    apply sort_filter _ _ _ _ hc
    intro a _ b _ ha hb
    rw [of_decide_eq_true ha, of_decide_eq_true hb]
  · intro t
    apply sort_filter _ _ _ _ hc
    intro a _ b _ ha hb
    rw [of_decide_eq_true ha, of_decide_eq_true hb]

/-- C8 witness: four tasks with valid due dates, two on each of two days. -/
theorem formatTasks_stable_witness :
    (∀ d : DueDate,
      (formatTasks sampleDate
          [⟨⟨"1"⟩, "Write report", .str "2024-01-02T00:00:00Z", ⟨"10"⟩, none⟩,
           ⟨⟨"2"⟩, "Send invoice", .str "2024-01-01T00:00:00Z", ⟨"10"⟩, none⟩,
           ⟨⟨"3"⟩, "Call client", .str "2024-01-02T00:00:00Z", ⟨"10"⟩, none⟩,
           ⟨⟨"4"⟩, "Book venue", .str "2024-01-01T00:00:00Z", ⟨"10"⟩, none⟩]
          Lookup.empty Lookup.empty Lookup.empty "https://example.teamwork.com").filter
          (fun r => decide (r.DueDate = d))
        = ([⟨⟨"1"⟩, "Write report", .str "2024-01-02T00:00:00Z", ⟨"10"⟩, none⟩,
           ⟨⟨"2"⟩, "Send invoice", .str "2024-01-01T00:00:00Z", ⟨"10"⟩, none⟩,
           ⟨⟨"3"⟩, "Call client", .str "2024-01-02T00:00:00Z", ⟨"10"⟩, none⟩,
           ⟨⟨"4"⟩, "Book venue", .str "2024-01-01T00:00:00Z", ⟨"10"⟩, none⟩].map
            (formatTask Lookup.empty Lookup.empty Lookup.empty
              "https://example.teamwork.com")).filter
          (fun r => decide (r.DueDate = d)))
    ∧ (∀ t : Option Int,
      (formatTasks sampleDate
          [⟨⟨"1"⟩, "Write report", .str "2024-01-02T00:00:00Z", ⟨"10"⟩, none⟩,
           ⟨⟨"2"⟩, "Send invoice", .str "2024-01-01T00:00:00Z", ⟨"10"⟩, none⟩,
           ⟨⟨"3"⟩, "Call client", .str "2024-01-02T00:00:00Z", ⟨"10"⟩, none⟩,
           ⟨⟨"4"⟩, "Book venue", .str "2024-01-01T00:00:00Z", ⟨"10"⟩, none⟩]
          Lookup.empty Lookup.empty Lookup.empty "https://example.teamwork.com").filter
          (fun r => decide (timeValue sampleDate r.DueDate = t))
        = ([⟨⟨"1"⟩, "Write report", .str "2024-01-02T00:00:00Z", ⟨"10"⟩, none⟩,
           ⟨⟨"2"⟩, "Send invoice", .str "2024-01-01T00:00:00Z", ⟨"10"⟩, none⟩,
           ⟨⟨"3"⟩, "Call client", .str "2024-01-02T00:00:00Z", ⟨"10"⟩, none⟩,
           ⟨⟨"4"⟩, "Book venue", .str "2024-01-01T00:00:00Z", ⟨"10"⟩, none⟩].map
            (formatTask Lookup.empty Lookup.empty Lookup.empty
              "https://example.teamwork.com")).filter
          (fun r => decide (timeValue sampleDate r.DueDate = t))) :=
  formatTasks_stable sampleDate _ _ _ _ _ (by decide)

/-- C8 as stated fails: among seven tasks of which the fifth has a due date
that is not a date, the binary insertion puts the seventh row in front of the
third, and so in front of the sixth, which has the same due date and stood
before it in the input. -/
theorem formatTasks_not_stable :
    (formatTasks sampleDate mixedTasks Lookup.empty Lookup.empty Lookup.empty
        "https://example.teamwork.com").map Row.TaskID
      = [⟨"1"⟩, ⟨"2"⟩, ⟨"4"⟩, ⟨"7"⟩, ⟨"3"⟩, ⟨"5"⟩, ⟨"6"⟩]
    ∧ ((formatTasks sampleDate mixedTasks Lookup.empty Lookup.empty Lookup.empty
        "https://example.teamwork.com").filter
          (fun r => decide (r.DueDate = .str "2024-01-01T00:00:00Z"))).map Row.TaskID
      = [⟨"1"⟩, ⟨"2"⟩, ⟨"4"⟩, ⟨"7"⟩, ⟨"6"⟩]
    ∧ ((mixedTasks.map (formatTask Lookup.empty Lookup.empty Lookup.empty
        "https://example.teamwork.com")).filter
          (fun r => decide (r.DueDate = .str "2024-01-01T00:00:00Z"))).map Row.TaskID
      = [⟨"1"⟩, ⟨"2"⟩, ⟨"4"⟩, ⟨"6"⟩, ⟨"7"⟩] := by
  decide

/-! ## The pagination loop -/

theorem data?_eq_some {r : FetchResult} {data : Data} (h : r.data? = some data) :
    ∃ status, r = .response status (.ok data) ∧ FetchResult.ok status = true := by
  cases r with
  | rejected message => simp [FetchResult.data?] at h
  | response status json =>
    cases json with
    | error message => simp [FetchResult.data?] at h
    | ok d =>
      by_cases hok : FetchResult.ok status = true
      · simp [FetchResult.data?, hok] at h
        exact ⟨status, by rw [h], hok⟩
      · simp [FetchResult.data?, hok] at h

theorem fetchPages_more (upstream : Nat → FetchResult) (apiKey baseUrl : String)
    (fuel page : Nat) (acc : Accumulated) (data : Data)
    (hdata : (upstream page).data? = some data) (hmore : hasMorePages data = true) :
    fetchPages upstream apiKey baseUrl (fuel + 1) page acc
      = (fetchPages upstream apiKey baseUrl fuel (page + 1) (absorb acc data)).map
          (fun r => (request apiKey baseUrl page :: r.1, r.2)) := by
  obtain ⟨status, hr, hok⟩ := data?_eq_some hdata
  simp [fetchPages, hr, hok, hmore]

theorem fetchPages_last (upstream : Nat → FetchResult) (apiKey baseUrl : String)
    (fuel page : Nat) (acc : Accumulated) (data : Data)
    (hdata : (upstream page).data? = some data) (hmore : hasMorePages data = false) :
    fetchPages upstream apiKey baseUrl (fuel + 1) page acc
      = some ([request apiKey baseUrl page], .ok (absorb acc data)) := by
  obtain ⟨status, hr, hok⟩ := data?_eq_some hdata
  simp [fetchPages, hr, hok, hmore]

theorem fetchPages_status (upstream : Nat → FetchResult) (apiKey baseUrl : String)
    (fuel page : Nat) (acc : Accumulated) (status : Nat) (json : Except String Data)
    (hr : upstream page = .response status json) (hok : FetchResult.ok status = false) :
    fetchPages upstream apiKey baseUrl (fuel + 1) page acc
      = some ([request apiKey baseUrl page], .error (statusMessage status)) := by
  simp [fetchPages, hr, hok]

theorem fetchPages_continue (upstream : Nat → FetchResult) (apiKey baseUrl : String)
    (body : Nat → Data) (n : Nat) :
    ∀ (fuel page : Nat) (acc : Accumulated),
      (∀ i, i < n → (upstream (page + i)).data? = some (body (page + i))
        ∧ hasMorePages (body (page + i)) = true) →
      fetchPages upstream apiKey baseUrl (n + fuel) page acc
        = (fetchPages upstream apiKey baseUrl fuel (page + n)
            (((List.range n).map (fun i => body (page + i))).foldl absorb acc)).map
          (fun r => ((List.range n).map (fun i => request apiKey baseUrl (page + i)) ++ r.1,
            r.2)) := by
  induction n with
  | zero =>
    intro fuel page acc _
    simp
  | succ n ih =>
    intro fuel page acc h
    have h0 := h 0 (Nat.succ_pos n)
    rw [show n + 1 + fuel = (n + fuel) + 1 by omega]
    rw [fetchPages_more upstream apiKey baseUrl (n + fuel) page acc (body page) h0.1 h0.2]
    rw [ih fuel (page + 1) (absorb acc (body page))
      (fun i hi => by
        have := h (i + 1) (Nat.succ_lt_succ hi)
        rw [show page + (i + 1) = page + 1 + i by omega] at this
        exact this)]
    rw [List.range_succ_eq_map]
    simp only [List.map_cons, List.map_map, List.foldl_cons, Option.map_map, Nat.add_zero]
    have e1 : (fun i => body (page + 1 + i)) = ((fun i => body (page + i)) ∘ Nat.succ) := by
      funext i
      simp [Nat.add_assoc, Nat.add_comm 1 i]
    have e2 : (fun i => request apiKey baseUrl (page + 1 + i))
        = ((fun i => request apiKey baseUrl (page + i)) ∘ Nat.succ) := by
      funext i
      simp [Nat.add_assoc, Nat.add_comm 1 i]
    rw [e1, e2, show page + 1 + n = page + (n + 1) by omega]
    rfl

/-- A run in which the pages 1, ..., k succeed and the page k is the first
whose body does not ask for more: the loop stops after k requests with
everything the k pages brought. -/
theorem fetchPages_run (upstream : Nat → FetchResult) (apiKey baseUrl : String)
    (body : Nat → Data) (k fuel : Nat)
    (hk : 1 ≤ k)
    (hpages : ∀ p, 1 ≤ p → p ≤ k → (upstream p).data? = some (body p))
    (hmore : ∀ p, 1 ≤ p → p < k → hasMorePages (body p) = true)
    (hlast : hasMorePages (body k) = false)
    (hfuel : k ≤ fuel) :
    fetchPages upstream apiKey baseUrl fuel 1 Accumulated.initial
      = some (requestsUpTo apiKey baseUrl k,
          .ok ((pagesUpTo body k).foldl absorb Accumulated.initial)) := by
  obtain ⟨n, rfl⟩ : ∃ n, k = n + 1 := ⟨k - 1, by omega⟩
  obtain ⟨extra, rfl⟩ : ∃ extra, fuel = n + (extra + 1) := ⟨fuel - n - 1, by omega⟩
  rw [fetchPages_continue upstream apiKey baseUrl body n (extra + 1) 1 Accumulated.initial
    (fun i hi => ⟨hpages (1 + i) (by omega) (by omega), hmore (1 + i) (by omega) (by omega)⟩)]
  rw [fetchPages_last upstream apiKey baseUrl extra (1 + n) _ (body (1 + n))
    (hpages (1 + n) (by omega) (by omega)) (by rw [Nat.add_comm 1 n]; exact hlast)]
  simp only [Option.map_some', requestsUpTo, pagesUpTo, List.range_succ, List.map_append,
    List.map_cons, List.map_nil, List.foldl_append, List.foldl_cons, List.foldl_nil,
    Nat.add_comm 1]

/-! ## The lookup tables -/

theorem foldl_set_apply {α : Type} (id : α → Id) (records : List α) (table : Lookup α)
    (k : Id) :
    (records.foldl (fun t r => t.set (id r) r) table) k
      = (records.reverse.find? (fun r => id r == k)).orElse (fun _ => table k) := by
  induction records using List.reverseRecOn with
  | nil => simp
  | append_singleton rs r ih =>
    rw [List.foldl_append, List.reverse_append]
    simp only [List.foldl_cons, List.foldl_nil, List.reverse_cons, List.reverse_nil,
      List.nil_append, List.singleton_append, List.find?_cons]
    by_cases h : id r = k
    · simp [Lookup.set, h]
    · have h' : ¬ k = id r := fun e => h e.symm
      have hb : (id r == k) = false := by simpa using h
      simp [Lookup.set, h', ih, hb]

theorem mergeIncluded_eq {α : Type} (id : α → Id) (table : Lookup α)
    (collection : Option (List α)) :
    mergeIncluded id table collection
      = (collection.getD []).foldl (fun t r => t.set (id r) r) table := by
  cases collection <;> rfl

theorem foldl_tables_latest {α : Type} (id : α → Id) (pages : List (List α)) (k : Id) :
    (pages.foldl (fun table records => records.foldl (fun t r => t.set (id r) r) table)
      Lookup.empty) k = latestRecord id pages k := by
  induction pages using List.reverseRecOn with
  | nil => simp [latestRecord, Lookup.empty]
  | append_singleton ps p ih =>
    rw [List.foldl_append]
    simp only [List.foldl_cons, List.foldl_nil]
    rw [foldl_set_apply, ih]
    unfold latestRecord
    rw [List.reverse_append]
    simp only [List.reverse_cons, List.reverse_nil, List.nil_append, List.singleton_append,
      List.find?_cons]
    by_cases hany : p.any (fun r => id r == k) = true
    · rw [hany]
      obtain ⟨r, hr, hk⟩ := List.any_eq_true.1 hany
      have hsome : (p.reverse.find? (fun r => id r == k)).isSome = true := by
        rw [List.find?_isSome]
        exact ⟨r, List.mem_reverse.2 hr, hk⟩
      obtain ⟨x, hx⟩ := Option.isSome_iff_exists.1 hsome
      simp [hx]
    · have hany' : p.any (fun r => id r == k) = false := by simpa using hany
      rw [hany']
      have hnone : p.reverse.find? (fun r => id r == k) = none := by
        rw [List.find?_eq_none]
        intro x hx hk
        exact hany (List.any_eq_true.2 ⟨x, List.mem_reverse.1 hx, hk⟩)
      simp [hnone]

theorem absorb_tasks (acc : Accumulated) (data : Data) :
    (absorb acc data).allOverdueTasks = acc.allOverdueTasks ++ tasksWithDueDate data := by
  unfold absorb
  cases data.included <;> rfl

theorem absorb_users (acc : Accumulated) (data : Data) :
    (absorb acc data).usersLookup
      = (includedUsers data).foldl (fun t r => t.set (User.id r) r) acc.usersLookup := by
  unfold absorb includedUsers
  cases data.included <;> simp [mergeIncluded_eq]

theorem absorb_projects (acc : Accumulated) (data : Data) :
    (absorb acc data).projectsLookup
      = (includedProjects data).foldl (fun t r => t.set (Project.id r) r)
          acc.projectsLookup := by
  unfold absorb includedProjects
  cases data.included <;> simp [mergeIncluded_eq]

theorem absorb_tasklists (acc : Accumulated) (data : Data) :
    (absorb acc data).tasklistsLookup
      = (includedTasklists data).foldl (fun t r => t.set (Tasklist.id r) r)
          acc.tasklistsLookup := by
  unfold absorb includedTasklists
  cases data.included <;> simp [mergeIncluded_eq]

theorem foldl_absorb_tasks (pages : List Data) (acc : Accumulated) :
    (pages.foldl absorb acc).allOverdueTasks
      = acc.allOverdueTasks ++ (pages.map tasksWithDueDate).flatten := by
  induction pages generalizing acc with
  | nil => simp
  | cons d ds ih => simp [ih, absorb_tasks, List.append_assoc]

theorem foldl_absorb_users (pages : List Data) (acc : Accumulated) :
    (pages.foldl absorb acc).usersLookup
      = (pages.map includedUsers).foldl
          (fun table records => records.foldl (fun t r => t.set (User.id r) r) table)
          acc.usersLookup := by
  induction pages generalizing acc with
  | nil => simp
  | cons d ds ih => simp [ih, absorb_users]

theorem foldl_absorb_projects (pages : List Data) (acc : Accumulated) :
    (pages.foldl absorb acc).projectsLookup
      = (pages.map includedProjects).foldl
          (fun table records => records.foldl (fun t r => t.set (Project.id r) r) table)
          acc.projectsLookup := by
  induction pages generalizing acc with
  | nil => simp
  | cons d ds ih => simp [ih, absorb_projects]

theorem foldl_absorb_tasklists (pages : List Data) (acc : Accumulated) :
    (pages.foldl absorb acc).tasklistsLookup
      = (pages.map includedTasklists).foldl
          (fun table records => records.foldl (fun t r => t.set (Tasklist.id r) r) table)
          acc.tasklistsLookup := by
  induction pages generalizing acc with
  | nil => simp
  | cons d ds ih => simp [ih, absorb_tasklists]

/-- A successful run of `fetchAllOverdueTasks` over the pages 1, ..., k: the
requests issued and the rows returned. -/
theorem fetchAllOverdueTasks_run (date : String → Option Int) (upstream : Nat → FetchResult)
    (apiKey baseUrl : String) (body : Nat → Data) (k fuel : Nat)
    (hk : 1 ≤ k)
    (hpages : ∀ p, 1 ≤ p → p ≤ k → (upstream p).data? = some (body p))
    (hmore : ∀ p, 1 ≤ p → p < k → hasMorePages (body p) = true)
    (hlast : hasMorePages (body k) = false)
    (hfuel : k ≤ fuel) :
    fetchAllOverdueTasks date upstream fuel apiKey baseUrl
      = some (requestsUpTo apiKey baseUrl k,
          .ok (formatTasks date ((pagesUpTo body k).map tasksWithDueDate).flatten
            (latestRecord Project.id ((pagesUpTo body k).map includedProjects))
            (latestRecord Tasklist.id ((pagesUpTo body k).map includedTasklists))
            (latestRecord User.id ((pagesUpTo body k).map includedUsers))
            baseUrl)) := by
  unfold fetchAllOverdueTasks
  rw [fetchPages_run upstream apiKey baseUrl body k fuel hk hpages hmore hlast hfuel]
  have hp : ((pagesUpTo body k).foldl absorb Accumulated.initial).projectsLookup
      = latestRecord Project.id ((pagesUpTo body k).map includedProjects) := by
    funext id
    rw [foldl_absorb_projects]
    exact foldl_tables_latest Project.id _ id
  have ht : ((pagesUpTo body k).foldl absorb Accumulated.initial).tasklistsLookup
      = latestRecord Tasklist.id ((pagesUpTo body k).map includedTasklists) := by
    funext id
    rw [foldl_absorb_tasklists]
    exact foldl_tables_latest Tasklist.id _ id
  have hu : ((pagesUpTo body k).foldl absorb Accumulated.initial).usersLookup
      = latestRecord User.id ((pagesUpTo body k).map includedUsers) := by
    funext id
    rw [foldl_absorb_users]
    exact foldl_tables_latest User.id _ id
  have hts : ((pagesUpTo body k).foldl absorb Accumulated.initial).allOverdueTasks
      = ((pagesUpTo body k).map tasksWithDueDate).flatten := by
    rw [foldl_absorb_tasks]
    rfl
  simp only [Option.map_some', Except.map, hp, ht, hu, hts]

/-- A run that meets a page with a non-success status after k - 1 pages that
succeeded and asked for more. -/
theorem fetchPages_failure (upstream : Nat → FetchResult) (apiKey baseUrl : String)
    (body : Nat → Data) (k fuel status : Nat) (json : Except String Data)
    (hk : 1 ≤ k)
    (hpages : ∀ p, 1 ≤ p → p < k → (upstream p).data? = some (body p))
    (hmore : ∀ p, 1 ≤ p → p < k → hasMorePages (body p) = true)
    (hfail : upstream k = .response status json)
    (hstatus : FetchResult.ok status = false)
    (hfuel : k ≤ fuel) :
    fetchPages upstream apiKey baseUrl fuel 1 Accumulated.initial
      = some (requestsUpTo apiKey baseUrl k, .error (statusMessage status)) := by
  obtain ⟨n, rfl⟩ : ∃ n, k = n + 1 := ⟨k - 1, by omega⟩
  obtain ⟨extra, rfl⟩ : ∃ extra, fuel = n + (extra + 1) := ⟨fuel - n - 1, by omega⟩
  rw [fetchPages_continue upstream apiKey baseUrl body n (extra + 1) 1 Accumulated.initial
    (fun i hi => ⟨hpages (1 + i) (by omega) (by omega), hmore (1 + i) (by omega) (by omega)⟩)]
  rw [fetchPages_status upstream apiKey baseUrl extra (1 + n) _ status json
    (by rw [Nat.add_comm 1 n]; exact hfail) hstatus]
  simp only [Option.map_some', requestsUpTo, List.range_succ, List.map_append,
    List.map_cons, List.map_nil, Nat.add_comm 1]

theorem fetchPages_first_request (upstream : Nat → FetchResult) (apiKey baseUrl : String)
    (fuel page : Nat) (acc : Accumulated) (r : List Request × Except String Accumulated)
    (h : fetchPages upstream apiKey baseUrl fuel page acc = some r) :
    r.1.head? = some (request apiKey baseUrl page) := by
  cases fuel with
  | zero => simp [fetchPages] at h
  | succ fuel =>
    unfold fetchPages at h
    split at h
    · cases h
      rfl
    · split at h
      · split at h
        · cases h
          rfl
        · split at h
          · obtain ⟨r0, _, hr0⟩ := Option.map_eq_some'.1 h
            rw [← hr0]
            rfl
          · cases h
            rfl
      · cases h
        rfl

theorem isSet_some (s : String) (h : s ≠ "") : isSet (some s) = true := by
  simp [isSet, h]

theorem handler_of_set (date : String → Option Int) (upstream : Nat → FetchResult)
    (fuel : Nat) (env : Env) (apiKey baseUrl : String)
    (hkey : env.TEAMWORK_API_KEY = some apiKey) (hkey0 : apiKey ≠ "")
    (hurl : env.TEAMWORK_BASE_URL = some baseUrl) (hurl0 : baseUrl ≠ "") :
    handler date upstream fuel env
      = match fetchAllOverdueTasks date upstream fuel apiKey baseUrl with
        | none => none
        | some (requests, .ok allTasks) =>
          some { res := { status := 200
                          headers := [("Content-Type", "application/json")]
                          body := .rows allTasks }
                 requests := requests
                 logged := [] }
        | some (requests, .error message) =>
          some { res := { status := 500
                          headers := []
                          body := .failure "Failed to fetch tasks from Teamwork API."
                            (some message) }
                 requests := requests
                 logged := [message] } := by
  unfold handler
  rw [hkey, hurl, isSet_some apiKey hkey0, isSet_some baseUrl hurl0]
  rfl

theorem fetchAllOverdueTasks_first_request (date : String → Option Int)
    (upstream : Nat → FetchResult) (fuel : Nat) (apiKey baseUrl : String)
    (r : List Request × Except String (List Row))
    (h : fetchAllOverdueTasks date upstream fuel apiKey baseUrl = some r) :
    r.1.head? = some (request apiKey baseUrl 1) := by
  unfold fetchAllOverdueTasks at h
  obtain ⟨r0, h0, hr0⟩ := Option.map_eq_some'.1 h
  rw [← hr0]
  exact fetchPages_first_request upstream apiKey baseUrl fuel 1 _ r0 h0

theorem tasksWithDueDate_eq (data : Data) :
    tasksWithDueDate data = (tasksOf data).filter (fun task => task.dueDate.truthy) := by
  unfold tasksWithDueDate tasksOf
  cases h : data.tasks with
  | none => rfl
  | some tasks =>
    cases tasks with
    | nil => rfl
    | cons t ts => simp

/-! ## The claims -/

/-- C2: when the API key or the base URL is unset, the handler answers with
status 500 and the fixed configuration-error body and issues no upstream
request; when both are set and not empty, every outcome of the handler starts
with the request for page 1 and its body is not the configuration-error body. -/
theorem handler_configuration (date : String → Option Int) (upstream : Nat → FetchResult)
    (fuel : Nat) (env : Env) :
    ((env.TEAMWORK_API_KEY = none ∨ env.TEAMWORK_BASE_URL = none) →
      handler date upstream fuel env
        = some { res := { status := 500
                          headers := []
                          body := .failure
                            "Server configuration error: API key or Base URL not set." none }
                 requests := []
                 logged := [] })
    ∧ (∀ (apiKey baseUrl : String) (outcome : Outcome),
        env.TEAMWORK_API_KEY = some apiKey → apiKey ≠ "" →
        env.TEAMWORK_BASE_URL = some baseUrl → baseUrl ≠ "" →
        handler date upstream fuel env = some outcome →
        outcome.requests.head? = some (request apiKey baseUrl 1)
          ∧ outcome.res.body
            ≠ .failure "Server configuration error: API key or Base URL not set." none) := by
  constructor
  · intro h
    unfold handler
    rcases h with h | h
    · rw [h]
      rfl
    · rw [h]
      cases isSet env.TEAMWORK_API_KEY <;> rfl
  · intro apiKey baseUrl outcome hkey hkey0 hurl hurl0 h
    rw [handler_of_set date upstream fuel env apiKey baseUrl hkey hkey0 hurl hurl0] at h
    cases hf : fetchAllOverdueTasks date upstream fuel apiKey baseUrl with
    | none =>
      rw [hf] at h
      cases h
    | some r =>
      have hfirst := fetchAllOverdueTasks_first_request date upstream fuel apiKey baseUrl r hf
      rw [hf] at h
      obtain ⟨requests, result⟩ := r
      cases result with
      | ok allTasks =>
        cases h
        exact ⟨hfirst, by simp⟩
      | error message =>
        cases h
        exact ⟨hfirst, by simp⟩

/-- C3: when the pages before page k succeed and ask for more and page k comes
back with a non-success status, the handler issues the requests for the pages
1, ..., k and no other, and answers with status 500, the error
"Failed to fetch tasks from Teamwork API." and, as details, the message
"Teamwork API request failed with status" followed by the status of page k; the
body holds no rows. -/
theorem handler_upstream_failure (date : String → Option Int) (upstream : Nat → FetchResult)
    (env : Env) (apiKey baseUrl : String) (body : Nat → Data) (k fuel status : Nat)
    (json : Except String Data)
    (hkey : env.TEAMWORK_API_KEY = some apiKey) (hkey0 : apiKey ≠ "")
    (hurl : env.TEAMWORK_BASE_URL = some baseUrl) (hurl0 : baseUrl ≠ "")
    (hk : 1 ≤ k)
    (hpages : ∀ p, 1 ≤ p → p < k → (upstream p).data? = some (body p))
    (hmore : ∀ p, 1 ≤ p → p < k → hasMorePages (body p) = true)
    (hfail : upstream k = .response status json)
    (hstatus : FetchResult.ok status = false)
    (hfuel : k ≤ fuel) :
    handler date upstream fuel env
        = some { res := { status := 500
                          headers := []
                          body := .failure "Failed to fetch tasks from Teamwork API."
                            (some ("Teamwork API request failed with status "
                              ++ toString status)) }
                 requests := (List.range k).map (fun i => request apiKey baseUrl (i + 1))
                 logged := ["Teamwork API request failed with status " ++ toString status] }
      ∧ ((List.range k).map (fun i => request apiKey baseUrl (i + 1))).length = k := by
  refine ⟨?_, by simp⟩
  rw [handler_of_set date upstream fuel env apiKey baseUrl hkey hkey0 hurl hurl0]
  unfold fetchAllOverdueTasks
  rw [fetchPages_failure upstream apiKey baseUrl body k fuel status json hk hpages hmore hfail
    hstatus hfuel]
  rfl

/-- C3 witness: the first page succeeds and asks for more, the second comes
back with status 503. -/
theorem handler_upstream_failure_witness :
    handler sampleDate failingUpstream 2 sampleEnv
        = some { res := { status := 500
                          headers := []
                          body := .failure "Failed to fetch tasks from Teamwork API."
                            (some ("Teamwork API request failed with status "
                              ++ toString 503)) }
                 requests := (List.range 2).map
                   (fun i => request "key" "https://example.teamwork.com" (i + 1))
                 logged := ["Teamwork API request failed with status " ++ toString 503] }
      ∧ ((List.range 2).map
          (fun i => request "key" "https://example.teamwork.com" (i + 1))).length = 2 :=
  handler_upstream_failure sampleDate failingUpstream sampleEnv "key"
    "https://example.teamwork.com" sampleBody 2 2 503
    (.error "Unexpected token < in JSON at position 0") rfl (by decide) rfl (by decide)
    (by decide)
    (fun p h1 h2 => by
      have hp : p = 1 := by omega
      subst hp
      rfl)
    (fun p h1 h2 => by
      have hp : p = 1 := by omega
      subst hp
      rfl)
    rfl rfl (by decide)

/-- C4: when the pages 1, ..., k succeed and page k is the first whose body
does not say that there are more pages, `fetchAllOverdueTasks` returns after
exactly k requests, for the pages 1, 2, ..., k in this order, each with
`pageSize=50`; the tasks of a page play no part in this. -/
theorem fetchAllOverdueTasks_requests (date : String → Option Int)
    (upstream : Nat → FetchResult) (apiKey baseUrl : String) (body : Nat → Data)
    (k fuel : Nat)
    (hk : 1 ≤ k)
    (hpages : ∀ p, 1 ≤ p → p ≤ k → (upstream p).data? = some (body p))
    (hmore : ∀ p, 1 ≤ p → p < k → hasMorePages (body p) = true)
    (hlast : hasMorePages (body k) = false)
    (hfuel : k ≤ fuel) :
    ∃ (requests : List Request) (rows : List Row),
      fetchAllOverdueTasks date upstream fuel apiKey baseUrl = some (requests, .ok rows)
      ∧ requests.length = k
      ∧ requests = (List.range k).map (fun i => request apiKey baseUrl (i + 1))
      ∧ requests.map Request.uri = (List.range k).map (fun i =>
          baseUrl
            ++ "/projects/api/v3/tasks.json?filter[completed]=false&filter[dueDate][lt]=now&page="
            ++ toString (i + 1) ++ "&pageSize=50&include=projects,tasklists,users") := by
  refine ⟨_, _, fetchAllOverdueTasks_run date upstream apiKey baseUrl body k fuel hk hpages
    hmore hlast hfuel, ?_, rfl, ?_⟩
  · simp [requestsUpTo]
  · simp only [requestsUpTo, List.map_map]
    apply List.map_congr_left
    intro i _
    have h50 : "&pageSize=" ++ (toString pageSize ++ "&include=projects,tasklists,users")
        = "&pageSize=50&include=projects,tasklists,users" := by decide
    simp only [Function.comp, request, requestUri, String.append_assoc, h50]

/-- C4 witness: page 1 has no task and says there are more pages, page 2 says
there are none: two requests, for page 1 and then page 2. -/
theorem fetchAllOverdueTasks_requests_witness :
    ∃ (requests : List Request) (rows : List Row),
      fetchAllOverdueTasks sampleDate sparseUpstream 7 "key" "https://example.teamwork.com"
        = some (requests, .ok rows)
      ∧ requests.length = 2
      ∧ requests = (List.range 2).map
          (fun i => request "key" "https://example.teamwork.com" (i + 1))
      ∧ requests.map Request.uri = (List.range 2).map (fun i =>
          "https://example.teamwork.com"
            ++ "/projects/api/v3/tasks.json?filter[completed]=false&filter[dueDate][lt]=now&page="
            ++ toString (i + 1) ++ "&pageSize=50&include=projects,tasklists,users") :=
  fetchAllOverdueTasks_requests sampleDate sparseUpstream "key" "https://example.teamwork.com"
    sparseBody 2 7 (by decide)
    (fun p h1 h2 => by
      have hp : p = 1 ∨ p = 2 := by omega
      rcases hp with rfl | rfl <;> rfl)
    (fun p h1 h2 => by
      have hp : p = 1 := by omega
      subst hp
      rfl)
    rfl (by decide)

/-- The rows of a successful run are the rows of the tasks the loop kept. -/
theorem handler_rows_kept (date : String → Option Int) (upstream : Nat → FetchResult)
    (env : Env) (apiKey baseUrl : String) (body : Nat → Data) (k fuel : Nat)
    (hkey : env.TEAMWORK_API_KEY = some apiKey) (hkey0 : apiKey ≠ "")
    (hurl : env.TEAMWORK_BASE_URL = some baseUrl) (hurl0 : baseUrl ≠ "")
    (hk : 1 ≤ k)
    (hpages : ∀ p, 1 ≤ p → p ≤ k → (upstream p).data? = some (body p))
    (hmore : ∀ p, 1 ≤ p → p < k → hasMorePages (body p) = true)
    (hlast : hasMorePages (body k) = false)
    (hfuel : k ≤ fuel) :
    ∃ rows : List Row,
      handler date upstream fuel env
        = some { res := { status := 200
                          headers := [("Content-Type", "application/json")]
                          body := .rows rows }
                 requests := (List.range k).map (fun i => request apiKey baseUrl (i + 1))
                 logged := [] }
      ∧ rows.length
        = ((pagesUpTo body k).map
            (fun data => (tasksOf data).countP (fun task => task.dueDate.truthy))).sum
      ∧ (rows.map (fun r => (r.TaskID, r.Task, r.DueDate))).Perm
          ((((pagesUpTo body k).map tasksOf).flatten.filter
            (fun task => task.dueDate.truthy)).map
              (fun task => (task.id, task.name, task.dueDate)))
      ∧ ∀ r ∈ rows, r.DueDate.truthy = true := by
  have hkept : ((pagesUpTo body k).map tasksWithDueDate).flatten
      = ((pagesUpTo body k).map tasksOf).flatten.filter (fun task => task.dueDate.truthy) := by
    rw [List.filter_flatten, List.map_map]
    congr 1
    apply List.map_congr_left
    intro data _
    exact tasksWithDueDate_eq data
  have hperm := formatTasks_perm date ((pagesUpTo body k).map tasksWithDueDate).flatten
    (latestRecord Project.id ((pagesUpTo body k).map includedProjects))
    (latestRecord Tasklist.id ((pagesUpTo body k).map includedTasklists))
    (latestRecord User.id ((pagesUpTo body k).map includedUsers)) baseUrl
  refine ⟨formatTasks date ((pagesUpTo body k).map tasksWithDueDate).flatten
    (latestRecord Project.id ((pagesUpTo body k).map includedProjects))
    (latestRecord Tasklist.id ((pagesUpTo body k).map includedTasklists))
    (latestRecord User.id ((pagesUpTo body k).map includedUsers)) baseUrl, ?_, ?_, ?_, ?_⟩
  · rw [handler_of_set date upstream fuel env apiKey baseUrl hkey hkey0 hurl hurl0,
      fetchAllOverdueTasks_run date upstream apiKey baseUrl body k fuel hk hpages hmore hlast
        hfuel]
    rfl
  · rw [hperm.length_eq, List.length_map, List.length_flatten, List.map_map]
    congr 1
    apply List.map_congr_left
    intro data _
    simp [tasksWithDueDate_eq, List.countP_eq_length_filter]
  · refine (hperm.map _).trans ?_
    rw [List.map_map, hkept]
    exact List.Perm.refl _
  · intro r hr
    obtain ⟨task, ht, rfl⟩ := List.mem_map.1 (hperm.subset hr)
    rw [hkept] at ht
    exact (List.mem_filter.1 ht).2


/-- C5: in a successful run over the pages 1, ..., k the handler answers with
status 200 and exactly one row for each task of these pages whose due date is a
non-empty string, and no other row: the rows are, up to their order, these
tasks; their number is the sum over the pages of the number of such tasks;
every row has a non-empty string as due date; and when all tasks have one, the
number of rows is the number of tasks. -/
theorem handler_row_count (date : String → Option Int) (upstream : Nat → FetchResult)
    (env : Env) (apiKey baseUrl : String) (body : Nat → Data) (k fuel : Nat)
    (hkey : env.TEAMWORK_API_KEY = some apiKey) (hkey0 : apiKey ≠ "")
    (hurl : env.TEAMWORK_BASE_URL = some baseUrl) (hurl0 : baseUrl ≠ "")
    (hk : 1 ≤ k)
    (hpages : ∀ p, 1 ≤ p → p ≤ k → (upstream p).data? = some (body p))
    (hmore : ∀ p, 1 ≤ p → p < k → hasMorePages (body p) = true)
    (hlast : hasMorePages (body k) = false)
    (hfuel : k ≤ fuel) :
    ∃ rows : List Row,
      handler date upstream fuel env
        = some { res := { status := 200
                          headers := [("Content-Type", "application/json")]
                          body := .rows rows }
                 requests := (List.range k).map (fun i => request apiKey baseUrl (i + 1))
                 logged := [] }
      ∧ rows.length
        = (((List.range k).map (fun i => body (i + 1))).map
            (fun data => ((data.tasks.getD []).filter
              (fun task => match task.dueDate with
                | .str s => s != ""
                | _ => false)).length)).sum
      ∧ (rows.map (fun r => (r.TaskID, r.Task, r.DueDate))).Perm
          (((((List.range k).map (fun i => body (i + 1))).map
              (fun data => data.tasks.getD [])).flatten.filter
            (fun task => match task.dueDate with
              | .str s => s != ""
              | _ => false)).map
              (fun task => (task.id, task.name, task.dueDate)))
      ∧ (∀ r ∈ rows, ∃ s, r.DueDate = .str s ∧ s ≠ "")
      ∧ ((∀ i, i < k → ∀ task ∈ (body (i + 1)).tasks.getD [],
            ∃ s, task.dueDate = .str s ∧ s ≠ "") →
          rows.length
            = (((List.range k).map (fun i => body (i + 1))).map
                (fun data => (data.tasks.getD []).length)).sum) := by
  have ht : (fun task : Task => task.dueDate.truthy)
      = (fun task : Task => match task.dueDate with
          | .str s => s != ""
          | _ => false) := by
    funext task
    cases task.dueDate <;> rfl
  obtain ⟨rows, h1, h2, h3, h4⟩ := handler_rows_kept date upstream env apiKey baseUrl body k
    fuel hkey hkey0 hurl hurl0 hk hpages hmore hlast hfuel
  simp only [List.countP_eq_length_filter, ht] at h2
  rw [ht] at h3
  refine ⟨rows, h1, h2, h3, ?_, ?_⟩
  · intro r hr
    have := h4 r hr
    cases hd : r.DueDate with
    | undefined => simp [hd, DueDate.truthy] at this
    | null => simp [hd, DueDate.truthy] at this
    | str s =>
      refine ⟨s, rfl, ?_⟩
      simpa [hd, DueDate.truthy] using this
  · intro hall
    rw [h2]
    congr 1
    apply List.map_congr_left
    intro data hdata
    obtain ⟨i, hi, rfl⟩ := List.mem_map.1 hdata
    congr 1
    apply List.filter_eq_self.2
    intro task htask
    obtain ⟨s, hs, hne⟩ := hall i (List.mem_range.1 hi) task htask
    simp [hs, hne]

/-- C5 witness: two pages with three tasks, one of them with `null` as due
date, give the two rows of the other two tasks. -/
theorem handler_row_count_witness :
    (∃ rows : List Row,
      handler sampleDate sampleUpstream 2 sampleEnv
        = some { res := { status := 200
                          headers := [("Content-Type", "application/json")]
                          body := .rows rows }
                 requests := (List.range 2).map
                   (fun i => request "key" "https://example.teamwork.com" (i + 1))
                 logged := [] }
      ∧ rows.length
        = (((List.range 2).map (fun i => sampleBody (i + 1))).map
            (fun data => ((data.tasks.getD []).filter
              (fun task => match task.dueDate with
                | .str s => s != ""
                | _ => false)).length)).sum
      ∧ (rows.map (fun r => (r.TaskID, r.Task, r.DueDate))).Perm
          (((((List.range 2).map (fun i => sampleBody (i + 1))).map
              (fun data => data.tasks.getD [])).flatten.filter
            (fun task => match task.dueDate with
              | .str s => s != ""
              | _ => false)).map
              (fun task => (task.id, task.name, task.dueDate)))
      ∧ (∀ r ∈ rows, ∃ s, r.DueDate = .str s ∧ s ≠ "")
      ∧ ((∀ i, i < 2 → ∀ task ∈ (sampleBody (i + 1)).tasks.getD [],
            ∃ s, task.dueDate = .str s ∧ s ≠ "") →
          rows.length
            = (((List.range 2).map (fun i => sampleBody (i + 1))).map
                (fun data => (data.tasks.getD []).length)).sum))
    ∧ handler sampleDate sampleUpstream 2 sampleEnv
        = some { res := { status := 200
                          headers := [("Content-Type", "application/json")]
                          body := .rows
                            [⟨⟨"2"⟩, "Website", "Send invoice", "Unassigned",
                                .str "2024-01-01T00:00:00Z",
                                "https://example.teamwork.com/app/tasks/2"⟩,
                             ⟨⟨"1"⟩, "Website", "Write report", "A One, B Two, Unknown User",
                                .str "2024-01-02T00:00:00Z",
                                "https://example.teamwork.com/app/tasks/1"⟩] }
                 requests := (List.range 2).map
                   (fun i => request "key" "https://example.teamwork.com" (i + 1))
                 logged := [] } :=
  ⟨handler_row_count sampleDate sampleUpstream sampleEnv "key" "https://example.teamwork.com"
    sampleBody 2 2 rfl (by decide) rfl (by decide) (by decide)
    (fun p h1 h2 => by
      have hp : p = 1 ∨ p = 2 := by omega
      rcases hp with rfl | rfl <;> rfl)
    (fun p h1 h2 => by
      have hp : p = 1 := by omega
      subst hp
      rfl)
    rfl (by decide), by decide⟩

/-- C6, as amended: the row's Project is "Project Not Found" when the task's
tasklist is not in the tasklist lookup or that tasklist's project is not in the
project lookup, and otherwise it is the name of the project reached through the
tasklist, whatever that name is. -/
theorem formatTask_project (projects : Lookup Project) (tasklists : Lookup Tasklist)
    (users : Lookup User) (baseUrl : String) (task : Task) :
    ((tasklists task.tasklistId = none
        ∨ ∃ tasklist, tasklists task.tasklistId = some tasklist
            ∧ projects tasklist.projectId = none) →
      (formatTask projects tasklists users baseUrl task).Project = "Project Not Found")
    ∧ (∀ tasklist project, tasklists task.tasklistId = some tasklist →
        projects tasklist.projectId = some project →
        (formatTask projects tasklists users baseUrl task).Project = project.name) := by
  constructor
  · intro h
    rcases h with h | ⟨tasklist, h1, h2⟩
    · simp [formatTask, projectName, h]
    · simp [formatTask, projectName, h1, h2]
  · intro tasklist project h1 h2
    simp [formatTask, projectName, h1, h2]

/-- C6 as stated fails: a project that is found and whose name is
"Project Not Found" gives that literal although neither lookup misses. -/
theorem formatTask_project_found_literal :
    (formatTask (Lookup.empty.set ⟨"5"⟩ ⟨⟨"5"⟩, "Project Not Found"⟩) (Lookup.empty.set ⟨"10"⟩ ⟨⟨"10"⟩, ⟨"5"⟩⟩)
        Lookup.empty "https://example.teamwork.com"
        ⟨⟨"1"⟩, "Write report", .str "2024-01-01T00:00:00Z", ⟨"10"⟩, none⟩).Project
      = "Project Not Found"
    ∧ (Lookup.empty.set ⟨"10"⟩ (⟨⟨"10"⟩, ⟨"5"⟩⟩ : Tasklist)) ⟨"10"⟩ = some ⟨⟨"10"⟩, ⟨"5"⟩⟩
    ∧ (Lookup.empty.set ⟨"5"⟩ (⟨⟨"5"⟩, "Project Not Found"⟩ : Project)) ⟨"5"⟩
      = some ⟨⟨"5"⟩, "Project Not Found"⟩ := by
  decide

/-- C7: the row's AssignedTo is "Unassigned" when the task has no assignee list
or an empty one; otherwise it is the names of the assignees in their order,
joined with ", ", where the name of an id in the user lookup is the first name,
a blank and the last name, and the name of an id not in it is "Unknown User".
Assignees 1 and 2 with the users A One and B Two give "A One, B Two". -/
theorem formatTask_assignedTo (projects : Lookup Project) (tasklists : Lookup Tasklist)
    (users : Lookup User) (baseUrl : String) (task : Task) :
    ((task.assigneeUserIds = none ∨ task.assigneeUserIds = some []) →
      (formatTask projects tasklists users baseUrl task).AssignedTo = "Unassigned")
    ∧ (∀ ids, task.assigneeUserIds = some ids → ids ≠ [] →
        (formatTask projects tasklists users baseUrl task).AssignedTo
          = ", ".intercalate (ids.map (fun id =>
              match users id with
              | some user => user.firstName ++ " " ++ user.lastName
              | none => "Unknown User")))
    ∧ (formatTask projects tasklists
          ((Lookup.empty.set ⟨"1"⟩ ⟨⟨"1"⟩, "A", "One"⟩).set ⟨"2"⟩ ⟨⟨"2"⟩, "B", "Two"⟩) baseUrl
          ⟨⟨"7"⟩, "Write report", .str "2024-01-01T00:00:00Z", ⟨"10"⟩, some [⟨"1"⟩, ⟨"2"⟩]⟩).AssignedTo
        = "A One, B Two" := by
  refine ⟨?_, ?_, ?_⟩
  · intro h
    rcases h with h | h <;> simp [formatTask, assigneeString, h]
  · intro ids h hne
    have hlen : ids.length > 0 := List.length_pos.2 hne
    simp only [formatTask, assigneeString, h, hlen, if_true]
    rfl
  · show assigneeString ((Lookup.empty.set ⟨"1"⟩ ⟨⟨"1"⟩, "A", "One"⟩).set ⟨"2"⟩ ⟨⟨"2"⟩, "B", "Two"⟩)
      ⟨⟨"7"⟩, "Write report", .str "2024-01-01T00:00:00Z", ⟨"10"⟩, some [⟨"1"⟩, ⟨"2"⟩]⟩ = "A One, B Two"
    decide

/-- C9: the row of a task has the task's id as TaskID, its name as Task, its
due date unchanged as DueDate and, as URL, the base URL followed by
"/app/tasks/" and the id as the template literal converts it to a string,
whatever the lookup tables are; and every row of `formatTasks` is the row of
one of the tasks. -/
theorem formatTask_fields (date : String → Option Int) (tasks : List Task)
    (projects : Lookup Project) (tasklists : Lookup Tasklist) (users : Lookup User)
    (baseUrl : String) (task : Task) :
    (formatTask projects tasklists users baseUrl task).TaskID = task.id
    ∧ (formatTask projects tasklists users baseUrl task).Task = task.name
    ∧ (formatTask projects tasklists users baseUrl task).DueDate = task.dueDate
    ∧ (formatTask projects tasklists users baseUrl task).URL
        = baseUrl ++ "/app/tasks/" ++ task.id.text
    ∧ (∀ (projects2 : Lookup Project) (tasklists2 : Lookup Tasklist) (users2 : Lookup User),
        (formatTask projects2 tasklists2 users2 baseUrl task).TaskID
            = (formatTask projects tasklists users baseUrl task).TaskID
          ∧ (formatTask projects2 tasklists2 users2 baseUrl task).Task
            = (formatTask projects tasklists users baseUrl task).Task
          ∧ (formatTask projects2 tasklists2 users2 baseUrl task).DueDate
            = (formatTask projects tasklists users baseUrl task).DueDate
          ∧ (formatTask projects2 tasklists2 users2 baseUrl task).URL
            = (formatTask projects tasklists users baseUrl task).URL)
    ∧ (∀ row ∈ formatTasks date tasks projects tasklists users baseUrl,
        ∃ t ∈ tasks, row = formatTask projects tasklists users baseUrl t)
    ∧ (task ∈ tasks →
        formatTask projects tasklists users baseUrl task
          ∈ formatTasks date tasks projects tasklists users baseUrl) := by
  refine ⟨rfl, rfl, rfl, rfl, fun _ _ _ => ⟨rfl, rfl, rfl, rfl⟩, ?_, ?_⟩
  · intro row hrow
    obtain ⟨t, ht, rfl⟩ := List.mem_map.1
      ((formatTasks_perm date tasks projects tasklists users baseUrl).subset hrow)
    exact ⟨t, ht, rfl⟩
  · intro h
    exact (formatTasks_perm date tasks projects tasklists users baseUrl).symm.subset
      (List.mem_map.2 ⟨task, h, rfl⟩)

/-- C10: in a successful run over the pages 1, ..., k the loop ends with the
tasks of all these pages that have a due date and with three lookup tables
that map an id to the record with this id from the latest page that included
one, a page without included data or without the collection adding nothing;
the rows returned are those of `formatTasks` on all these tasks and these final
tables. -/
theorem fetchAllOverdueTasks_final_tables (date : String → Option Int)
    (upstream : Nat → FetchResult) (apiKey baseUrl : String) (body : Nat → Data)
    (k fuel : Nat)
    (hk : 1 ≤ k)
    (hpages : ∀ p, 1 ≤ p → p ≤ k → (upstream p).data? = some (body p))
    (hmore : ∀ p, 1 ≤ p → p < k → hasMorePages (body p) = true)
    (hlast : hasMorePages (body k) = false)
    (hfuel : k ≤ fuel) :
    ∃ acc : Accumulated,
      fetchPages upstream apiKey baseUrl fuel 1 Accumulated.initial
        = some (requestsUpTo apiKey baseUrl k, .ok acc)
      ∧ acc.allOverdueTasks = ((pagesUpTo body k).map tasksWithDueDate).flatten
      ∧ acc.projectsLookup = latestRecord Project.id ((pagesUpTo body k).map includedProjects)
      ∧ acc.tasklistsLookup
        = latestRecord Tasklist.id ((pagesUpTo body k).map includedTasklists)
      ∧ acc.usersLookup = latestRecord User.id ((pagesUpTo body k).map includedUsers)
      ∧ fetchAllOverdueTasks date upstream fuel apiKey baseUrl
        = some (requestsUpTo apiKey baseUrl k,
            .ok (formatTasks date acc.allOverdueTasks acc.projectsLookup acc.tasklistsLookup
              acc.usersLookup baseUrl)) := by
  have hrun := fetchPages_run upstream apiKey baseUrl body k fuel hk hpages hmore hlast hfuel
  refine ⟨_, hrun, ?_, ?_, ?_, ?_, ?_⟩
  · rw [foldl_absorb_tasks]
    rfl
  · funext id
    rw [foldl_absorb_projects]
    exact foldl_tables_latest Project.id _ id
  · funext id
    rw [foldl_absorb_tasklists]
    exact foldl_tables_latest Tasklist.id _ id
  · funext id
    rw [foldl_absorb_users]
    exact foldl_tables_latest User.id _ id
  · unfold fetchAllOverdueTasks
    rw [hrun]
    rfl

/-- C10 witness: the task of page 1 gets its project from the tasklist and the
project that only page 2 includes, and the user 1, included by both pages, has
the name page 2 gives. -/
theorem fetchAllOverdueTasks_final_tables_witness :
    (∃ acc : Accumulated,
      fetchPages sampleUpstream "key" "https://example.teamwork.com" 2 1 Accumulated.initial
        = some (requestsUpTo "key" "https://example.teamwork.com" 2, .ok acc)
      ∧ acc.allOverdueTasks = ((pagesUpTo sampleBody 2).map tasksWithDueDate).flatten
      ∧ acc.projectsLookup
        = latestRecord Project.id ((pagesUpTo sampleBody 2).map includedProjects)
      ∧ acc.tasklistsLookup
        = latestRecord Tasklist.id ((pagesUpTo sampleBody 2).map includedTasklists)
      ∧ acc.usersLookup = latestRecord User.id ((pagesUpTo sampleBody 2).map includedUsers)
      ∧ fetchAllOverdueTasks sampleDate sampleUpstream 2 "key" "https://example.teamwork.com"
        = some (requestsUpTo "key" "https://example.teamwork.com" 2,
            .ok (formatTasks sampleDate acc.allOverdueTasks acc.projectsLookup
              acc.tasklistsLookup acc.usersLookup "https://example.teamwork.com")))
    ∧ formatTasks sampleDate ((pagesUpTo sampleBody 2).map tasksWithDueDate).flatten
        (latestRecord Project.id ((pagesUpTo sampleBody 2).map includedProjects))
        (latestRecord Tasklist.id ((pagesUpTo sampleBody 2).map includedTasklists))
        (latestRecord User.id ((pagesUpTo sampleBody 2).map includedUsers))
        "https://example.teamwork.com"
      = [⟨⟨"2"⟩, "Website", "Send invoice", "Unassigned", .str "2024-01-01T00:00:00Z",
            "https://example.teamwork.com/app/tasks/2"⟩,
         ⟨⟨"1"⟩, "Website", "Write report", "A One, B Two, Unknown User",
            .str "2024-01-02T00:00:00Z", "https://example.teamwork.com/app/tasks/1"⟩] :=
  ⟨fetchAllOverdueTasks_final_tables sampleDate sampleUpstream "key"
    "https://example.teamwork.com" sampleBody 2 2 (by decide)
    (fun p h1 h2 => by
      have hp : p = 1 ∨ p = 2 := by omega
      rcases hp with rfl | rfl <;> rfl)
    (fun p h1 h2 => by
      have hp : p = 1 := by omega
      subst hp
      rfl)
    rfl (by decide), by decide⟩

end GetOverdueTasks
